import Mathlib

/-!
Verification development for the telegram client core of this repository:
the response-decision engine, the text utilities (chunking, hashing,
lexical similarity) and the template compositor, shallowly embedded from
src/packages/client-telegram/src/telegramClient.ts and src/unnamed/part_000.

JavaScript effects are made explicit: functions that can raise a runtime
exception return Except Unit, logger side effects (warnings) are returned
as extra components, and awaited external calls are passed in as oracle
parameters describing their outcome.
-/

set_option linter.unusedVariables false

deriving instance DecidableEq for Except

/- ## Basic string helpers modelling JavaScript built-ins -/

/-- Checks that the first list is a prefix of the second. -/
def isPrefixList : List Char → List Char → Bool
  | [], _ => true
  | _ :: _, [] => false
  | a :: as, b :: bs => a == b && isPrefixList as bs

/-- Model of JavaScript String.prototype.includes: pat occurs as a contiguous
substring of s. -/
def listIncludes (s pat : List Char) : Bool :=
  match s with
  | [] => pat.isEmpty
  | _ :: rest => isPrefixList pat s || listIncludes rest pat

/-- String-level wrapper for listIncludes. -/
def strIncludes (s pat : String) : Bool :=
  listIncludes s.data pat.data

/-- Model of JavaScript String.prototype.toUpperCase (ASCII). -/
def jsToUpper (s : String) : String :=
  String.mk (s.data.map Char.toUpper)

/-- Whitespace recognized by JavaScript (ASCII part of the \s class). -/
def isJsSpace (c : Char) : Bool :=
  c == ' ' || c == '\t' || c == '\n' || c == '\r' || c == '\x0b' || c == '\x0c'

/-- Model of JavaScript String.prototype.trim. -/
def jsTrim (s : String) : String :=
  String.mk (((s.data.dropWhile isJsSpace).reverse.dropWhile isJsSpace).reverse)

/- ## Response-decision engine (telegramClient.ts lines 208-253, part_000 lines 43-106) -/

/-- Outcome of the awaited memory-search call inside generateShouldRespond:
either some step of the try block threw, or the search completed and
response[0]?.content?.text was the given optional string. -/
inductive GenOutcome where
  | threw : GenOutcome
  | found : Option String → GenOutcome
deriving DecidableEq

/-- Model of generateShouldRespond (src/unnamed/part_000 lines 43-106).
Returns the decision string together with a flag recording whether the
invalid-response warning (line 93) was emitted.  Any exception inside the
try block is caught and mapped to IGNORE (line 102-105). -/
def generateShouldRespond (gen : GenOutcome) : String × Bool :=
  match gen with
  | GenOutcome.threw => ("IGNORE", false)
  | GenOutcome.found t? =>
    let decision :=
      match t? with
      | none => "IGNORE"
      | some t =>
        let u := jsToUpper (jsTrim t)
        if u = "" then "IGNORE" else u
    if decision ≠ "RESPOND" ∧ decision ≠ "IGNORE" then ("IGNORE", true)
    else (decision, false)

/-- Lightweight message record stored in the per-chat interest tracker. -/
structure MsgRecord where
  userId : String
  userName : String
  text : String
deriving DecidableEq

/-- Per-chat interest tracker state (telegramClient.ts line 270). -/
structure ChatState where
  currentHandler : Option String
  lastMessageSent : Nat
  messages : List MsgRecord
deriving DecidableEq

/-- Inbound telegram message as used by the decision engine.  A field that
is absent on the JavaScript object (for example text on a photo message)
is modelled as none. -/
structure TgMessage where
  text : Option String
  caption : Option String
  chatType : String
  chatId : String
deriving DecidableEq

/-- Model of _isMessageForMe (telegramClient.ts lines 208-210).  The source
dereferences message.text unconditionally, so a message without a text
field raises a TypeError, modelled as Except.error. -/
def isMessageForMe (msg : TgMessage) (botUsername : String) : Except Unit Bool :=
  match msg.text with
  | none => Except.error ()
  | some t => Except.ok (strIncludes t ("@" ++ botUsername))

/-- Model of _shouldRespondBasedOnContext (telegramClient.ts lines 212-214). -/
def shouldRespondBasedOnContext (message : TgMessage) (chatState : ChatState) : Bool :=
  chatState.currentHandler == some "telegramMessageHandler"

/-- Model of _shouldRespond (telegramClient.ts lines 218-253).  composeOut
is the outcome of the composeContext call at line 241 (it can throw, see
the template compositor below) and gen is the outcome of the generation
delegate.  The result carries the decision together with a flag recording
whether the generation delegate was invoked; Except.error models an
uncaught exception propagating to the caller. -/
def shouldRespond (msg : TgMessage) (botUsername : String)
    (chatState : Option ChatState) (composeOut : Except Unit String)
    (gen : GenOutcome) : Except Unit (Bool × Bool) :=
  match isMessageForMe msg botUsername with
  | Except.error e => Except.error e
  | Except.ok true => Except.ok (true, false)
  | Except.ok false =>
    if msg.chatType = "private" then Except.ok (true, false)
    else
      let messageText :=
        match msg.text with
        | some t => t
        | none => match msg.caption with | some c => c | none => ""
      match chatState with
      | some cs => Except.ok (shouldRespondBasedOnContext msg cs, false)
      | none =>
        if messageText ≠ "" then
          match composeOut with
          | Except.error e => Except.error e
          | Except.ok _ =>
            Except.ok ((generateShouldRespond gen).1 == "RESPOND", true)
        else Except.ok (false, false)

/- ## Message chunking (splitMessage, telegramClient.ts lines 439-455,
identical copy in src/unnamed/part_000 lines 347-363) -/

/-- Helper for splitNl: prepend one character to a split result, either
starting a new first piece (at a newline) or extending the first piece. -/
def splitNlCons (c : Char) : List (List Char) → List (List Char)
  | [] => [[]]
  | r :: rs => if c = '\n' then [] :: r :: rs else (c :: r) :: rs

/-- Model of JavaScript text.split for the newline separator, at the
character-list level: a boundary at every newline, empty pieces kept. -/
def splitNl : List Char → List (List Char)
  | [] => [[]]
  | c :: cs => splitNlCons c (splitNl cs)

/-- Lines of a string, as in text.split of a newline. -/
def splitLines (s : String) : List String :=
  (splitNl s.data).map String.mk

/-- The greedy packing loop of splitMessage: remaining lines, the chunk
being built, and the chunks already pushed, at the character-list level.
An empty currentChunk is JavaScript-falsy: it is never pushed, and no
newline is prepended when appending to it. -/
def splitLoopC (ml : Nat) : List (List Char) → List Char → List (List Char) → List (List Char)
  | [], cur, acc => if cur = [] then acc else acc ++ [cur]
  | line :: rest, cur, acc =>
    if cur.length + line.length + 1 ≤ ml then
      splitLoopC ml rest (cur ++ (if cur = [] then [] else ['\n']) ++ line) acc
    else
      splitLoopC ml rest line (if cur = [] then acc else acc ++ [cur])

/-- Model of splitMessage: split on newlines and greedily pack lines into
chunks of at most maxLength characters; a single line longer than
maxLength becomes its own oversized chunk. -/
def splitMessage (text : String) (maxLength : Nat) : List String :=
  (splitLoopC maxLength (splitNl text.data) [] []).map String.mk

/-- Joining character-list pieces with newline separators. -/
def joinNlC : List (List Char) → List Char
  | [] => []
  | [c] => c
  | c :: d :: rest => c ++ '\n' :: joinNlC (d :: rest)

/-- Joining strings with newline separators (the reconstruction operation
of the chunking invariant). -/
def joinNl (l : List String) : String :=
  String.mk (joinNlC (l.map String.data))

/- ## String-to-identifier hashing (stringToUuid, src/unnamed/part_000
lines 370-384) -/

/-- UTF-16 code units of a character, as JavaScript charCodeAt sees them:
one unit below 0x10000, otherwise a surrogate pair. -/
def utf16Units (c : Char) : List Nat :=
  if c.toNat < 65536 then [c.toNat]
  else [55296 + (c.toNat - 65536) / 1024, 56320 + (c.toNat - 65536) % 1024]

/-- Wrap an integer to a signed 32-bit value, as JavaScript bitwise
operations (hash & hash) do. -/
def toInt32 (n : Int) : Int :=
  if n % 4294967296 < 2147483648 then n % 4294967296
  else n % 4294967296 - 4294967296

/-- One step of the rolling hash: hash = ((hash << 5) - hash) + code, with
the shift operating on 32-bit values and the result truncated to 32 bits
by the self-conjunction. -/
def hashStep (hash : Int) (code : Nat) : Int :=
  toInt32 (toInt32 (hash * 32) - hash + code)

/-- Lowercase hex digit character for a value below 16, as produced by
Number.prototype.toString with radix 16. -/
def hexDigit (n : Nat) : Char :=
  if n < 10 then Char.ofNat (48 + n) else Char.ofNat (87 + n)

/-- Accumulator loop extracting hex digits from least significant first. -/
def natToHexCore : Nat → List Char → List Char
  | 0, acc => acc
  | n + 1, acc => natToHexCore ((n + 1) / 16) (hexDigit ((n + 1) % 16) :: acc)
termination_by n _ => n
decreasing_by exact Nat.div_lt_self (Nat.succ_pos n) (by omega)

/-- Model of Math.abs(hash).toString(16): lowercase hex digits, a single 0
for zero. -/
def natToHex (n : Nat) : List Char :=
  if n = 0 then ['0'] else natToHexCore n []

/-- Model of stringToUuid (src/unnamed/part_000 lines 370-384): 32-bit
rolling hash of the UTF-16 code units, absolute value rendered as hex,
left-padded with zeros to 32 digits, sliced into the canonical 8-4-4-4-12
grouping. -/
def stringToUuid (str : String) : String :=
  let hash := ((str.data.map utf16Units).flatten).foldl hashStep 0
  let hashHex :=
    List.replicate (32 - (natToHex hash.natAbs).length) '0' ++ natToHex hash.natAbs
  String.mk (hashHex.take 8 ++ '-' :: ((hashHex.drop 8).take 4 ++
    '-' :: ((hashHex.drop 12).take 4 ++ '-' :: ((hashHex.drop 16).take 4 ++
    '-' :: (hashHex.drop 20).take 12))))

/-- Lowercase hexadecimal digit recognizer. -/
def isHexChar (c : Char) : Bool :=
  ('0' ≤ c && c ≤ '9') || ('a' ≤ c && c ≤ 'f')

/-- Recognizer for the canonical 8-4-4-4-12 grouped lowercase-hex
identifier format: 36 characters, hyphens at positions 8, 13, 18 and 23,
lowercase hex digits everywhere else. -/
def isUuidFormat (s : String) : Bool :=
  decide (s.data.length = 36) &&
  (s.data.take 8).all isHexChar && decide ((s.data.drop 8).take 1 = ['-']) &&
  ((s.data.drop 9).take 4).all isHexChar &&
  decide ((s.data.drop 13).take 1 = ['-']) &&
  ((s.data.drop 14).take 4).all isHexChar &&
  decide ((s.data.drop 18).take 1 = ['-']) &&
  ((s.data.drop 19).take 4).all isHexChar &&
  decide ((s.data.drop 23).take 1 = ['-']) &&
  (s.data.drop 24).all isHexChar

/- ## Chunked sending (sendMessageInChunks, telegramClient.ts lines
417-437, and the sent-chunk memory callback of handleMessage, lines
316-342) -/

/-- Response content as used by the send callback: the generated text and
the action carried by the response. -/
structure Content where
  text : Option String
  action : Option String
deriving DecidableEq

/-- A message sent over the transport: its chunk text and the message id
it replies to, if any. -/
structure SentMsg where
  text : String
  replyTo : Option Nat
deriving DecidableEq

/-- JavaScript truthiness of an optional numeric message id (absent or
zero is falsy). -/
def jsTruthyNat : Option Nat → Bool
  | none => false
  | some n => n != 0

/-- Model of sendMessageInChunks: split the content text into chunks of
at most 4096 characters and send them in list order; reply parameters
are attached exactly when the index is 0 and replyToMessageId is truthy. -/
def sendMessageInChunks (content : Content) (replyToMessageId : Option Nat) :
    List SentMsg :=
  (splitMessage (content.text.getD "") 4096).enum.map
    (fun p => ⟨p.2,
      if p.1 == 0 && jsTruthyNat replyToMessageId then replyToMessageId
      else none⟩)

/-- Memory record created for one sent chunk. -/
structure ChunkMemory where
  text : String
  action : Option String
  inReplyTo : String
deriving DecidableEq

/-- Model of the per-chunk memory creation loop of handleMessage (lines
319-339): each record keeps the chunk text, replies to the inbound
message id, and is tagged CONTINUE unless it is the last chunk, which
keeps the response content's action. -/
def recordSentMessages (sent : List SentMsg) (content : Content)
    (messageId : String) : List ChunkMemory :=
  sent.enum.map (fun p =>
    ⟨p.2.text,
      if p.1 != sent.length - 1 then some "CONTINUE" else content.action,
      messageId⟩)

/- ## Message dispatch pipeline (handleMessage, telegramClient.ts lines
255-352) -/

/-- Client configuration flags consulted by the pipeline filters. -/
structure TgConfig where
  shouldIgnoreBotMessages : Bool
  shouldIgnoreDirectMessages : Bool
deriving DecidableEq

/-- Outcome of one handleMessage invocation: an early filter drop, the
top-level catch absorbing an exception, or normal completion with the
decision and the chunks that were sent. -/
inductive HandleOutcome where
  | skippedNoMessage : HandleOutcome
  | skippedBot : HandleOutcome
  | skippedDM : HandleOutcome
  | skippedNoContent : HandleOutcome
  | errorCaught : HandleOutcome
  | completed : Bool → List SentMsg → HandleOutcome
deriving DecidableEq

/-- Model of the interest tracker update (telegramClient.ts lines
269-277): lazily create the ChatState, append the message record and
refresh lastMessageSent. -/
def trackMessage (states : List (String × ChatState)) (chatId : String)
    (rec : MsgRecord) (now : Nat) : List (String × ChatState) :=
  match List.lookup chatId states with
  | none => (chatId, ⟨none, now, [rec]⟩) :: states
  | some cs =>
    (chatId, ⟨cs.currentHandler, now, cs.messages ++ [rec]⟩) ::
      states.filter (fun p => p.1 != chatId)

/-- Model of handleMessage (telegramClient.ts lines 255-352).  External
awaited calls are oracle parameters: imageDesc is the processImage
outcome (none covers both no image and a caught image-processing error),
composeOut and gen feed _shouldRespond, and respContent is the
_generateResponse outcome (none covers both a caught error and an empty
search result).  The memory-store and state-composition calls are assumed
to succeed; the try block around the pipeline maps any uncaught exception
from _shouldRespond to errorCaught. -/
def handleMessage (hasMessageAndFrom : Bool) (cfg : TgConfig)
    (fromIsBot : Bool) (msg : TgMessage) (botUsername : String)
    (interestChats : List (String × ChatState)) (userRec : MsgRecord)
    (now : Nat) (imageDesc : Option String)
    (composeOut : Except Unit String) (gen : GenOutcome)
    (respContent : Option Content) (msgId : Nat) : HandleOutcome :=
  if ¬ hasMessageAndFrom then HandleOutcome.skippedNoMessage
  else if cfg.shouldIgnoreBotMessages && fromIsBot then HandleOutcome.skippedBot
  else if cfg.shouldIgnoreDirectMessages && (msg.chatType == "private") then
    HandleOutcome.skippedDM
  else
    let messageText :=
      match msg.text with
      | some t => t
      | none => match msg.caption with | some c => c | none => ""
    let tracked :=
      if msg.chatId ≠ "" ∧ messageText ≠ "" then
        trackMessage interestChats msg.chatId userRec now
      else interestChats
    let fullText :=
      match imageDesc with
      | some d => messageText ++ " " ++ d
      | none => messageText
    if fullText = "" then HandleOutcome.skippedNoContent
    else
      match shouldRespond msg botUsername (List.lookup msg.chatId tracked)
          composeOut gen with
      | Except.error _ => HandleOutcome.errorCaught
      | Except.ok (false, _) => HandleOutcome.completed false []
      | Except.ok (true, _) =>
        match respContent with
        | none => HandleOutcome.completed true []
        | some rc =>
          if rc.text.getD "" = "" then HandleOutcome.completed true []
          else HandleOutcome.completed true (sendMessageInChunks rc (some msgId))

/- ## Lexical similarity (cosineSimilarity, src/unnamed/part_000 lines
231-315) -/

/-- Word character of the JavaScript regex class: ASCII letter, digit or
underscore. -/
def isWordChar (c : Char) : Bool :=
  c.isAlpha || c.isDigit || c == '_'

/-- Characters kept by the preprocessing regex (word characters,
whitespace, apostrophe, underscore, hyphen); everything else is replaced
by a space. -/
def keepChar (c : Char) : Bool :=
  isWordChar c || isJsSpace c || c == Char.ofNat 39 || c == '_' || c == '-'

/-- Collapse every maximal run of whitespace into a single space (the
whitespace-run to space replacement); the flag records whether the
previous character was whitespace. -/
def collapseWsAux : Bool → List Char → List Char
  | _, [] => []
  | prevWs, c :: cs =>
    if isJsSpace c then
      if prevWs then collapseWsAux true cs else ' ' :: collapseWsAux true cs
    else c :: collapseWsAux false cs

/-- Model of the preprocessing chain of cosineSimilarity: lowercase,
strip disallowed characters to spaces, collapse whitespace runs, trim. -/
def preprocessText (text : String) : String :=
  jsTrim (String.mk (collapseWsAux false
    ((text.data.map Char.toLower).map (fun c => if keepChar c then c else ' '))))

/-- Helper for splitSp: prepend one character to a split-on-space result. -/
def splitSpCons (c : Char) : List (List Char) → List (List Char)
  | [] => [[]]
  | r :: rs => if c = ' ' then [] :: r :: rs else (c :: r) :: rs

/-- Model of JavaScript text.split for the single-space separator. -/
def splitSp : List Char → List (List Char)
  | [] => [[]]
  | c :: cs => splitSpCons c (splitSp cs)

/-- Model of getWords: split on spaces, keep tokens of length greater
than one. -/
def getWords (text : String) : List String :=
  ((splitSp text.data).map String.mk).filter (fun w => w.length > 1)

open Classical in
/-- Model of cosineSimilarity (src/unnamed/part_000 lines 231-315).  The
term-frequency sums are integers in the source's float arithmetic (exact
for these magnitudes), so they are accumulated in Nat here and cast to
the reals where the square roots and the division happen.  The
three-argument mode replaces each dot-product term by the maximum
pairwise product and normalizes by the maximum pairwise magnitude
product. -/
noncomputable def cosineSimilarity (text1 text2 : String)
    (text3 : Option String) : ℝ :=
  let words1 := getWords (preprocessText text1)
  let words2 := getWords (preprocessText text2)
  let words3 :=
    match text3 with
    | some t => getWords (preprocessText t)
    | none => []
  let uniqueWords := (words1 ++ words2 ++ words3).dedup
  let dotProduct : Nat :=
    (uniqueWords.map (fun w =>
      if words3.length ≠ 0 then
        max (max (words1.count w * words2.count w)
          (words2.count w * words3.count w))
          (words1.count w * words3.count w)
      else words1.count w * words2.count w)).sum
  let mag1Sq : Nat := (uniqueWords.map (fun w => words1.count w * words1.count w)).sum
  let mag2Sq : Nat := (uniqueWords.map (fun w => words2.count w * words2.count w)).sum
  let mag3Sq : Nat := (uniqueWords.map (fun w => words3.count w * words3.count w)).sum
  let magnitude1 : ℝ := Real.sqrt mag1Sq
  let magnitude2 : ℝ := Real.sqrt mag2Sq
  let magnitude3 : ℝ := if words3.length ≠ 0 then Real.sqrt mag3Sq else 1
  if magnitude1 = 0 ∨ magnitude2 = 0 ∨ (words3.length ≠ 0 ∧ magnitude3 = 0) then 0
  else if words3.length = 0 then dotProduct / (magnitude1 * magnitude2)
  else dotProduct /
    (max (max (magnitude1 * magnitude2) (magnitude2 * magnitude3))
      (magnitude1 * magnitude3))

/- ## Template compositor (composeContext, src/unnamed/part_000 lines
133-192) -/

/-- JavaScript-like values held by the state and defaultValues objects. -/
inductive JValue where
  | nullV : JValue
  | boolV : Bool → JValue
  | numV : Int → JValue
  | strV : String → JValue
  | arrV : List JValue → JValue
  | objV : List (String × JValue) → JValue

/-- The opening brace character. -/
def lbrace : Char := Char.ofNat 123

/-- The closing brace character. -/
def rbrace : Char := Char.ofNat 125

/-- The vertical bar character. -/
def barChar : Char := Char.ofNat 124

/-- Escaping of one character inside a JSON string literal. -/
def jsonEscapeChar (c : Char) : List Char :=
  if c = '"' then ['\\', '"']
  else if c = '\\' then ['\\', '\\']
  else if c = '\n' then ['\\', 'n']
  else if c = '\t' then ['\\', 't']
  else if c = '\r' then ['\\', 'r']
  else [c]

/-- Escaping of a JSON string body. -/
def jsonEscape (s : String) : String :=
  String.mk ((s.data.map jsonEscapeChar).flatten)

mutual
/-- Model of JSON.stringify on our value type (used by formatValue for
plain objects). -/
def jsonStringify : JValue → String
  | JValue.nullV => "null"
  | JValue.boolV b => if b then "true" else "false"
  | JValue.numV n => toString n
  | JValue.strV s => "\"" ++ jsonEscape s ++ "\""
  | JValue.arrV xs => "[" ++ jsonStringifyItems xs ++ "]"
  | JValue.objV fs => "\x7b" ++ jsonStringifyFields fs ++ "\x7d"

/-- Comma-separated JSON serialization of array items. -/
def jsonStringifyItems : List JValue → String
  | [] => ""
  | [x] => jsonStringify x
  | x :: y :: rest => jsonStringify x ++ "," ++ jsonStringifyItems (y :: rest)

/-- Comma-separated JSON serialization of object fields. -/
def jsonStringifyFields : List (String × JValue) → String
  | [] => ""
  | [(k, v)] => "\"" ++ jsonEscape k ++ "\":" ++ jsonStringify v
  | (k, v) :: g :: rest =>
    "\"" ++ jsonEscape k ++ "\":" ++ jsonStringify v ++ "," ++
      jsonStringifyFields (g :: rest)
end

mutual
/-- Element conversion of Array.prototype.join: null becomes empty,
nested arrays join with a bare comma, plain objects print as object
Object. -/
def jsElemString : JValue → String
  | JValue.nullV => ""
  | JValue.boolV b => if b then "true" else "false"
  | JValue.numV n => toString n
  | JValue.strV s => s
  | JValue.arrV xs => jsJoinComma xs
  | JValue.objV _ => "[object Object]"

/-- Bare-comma join used by nested array stringification. -/
def jsJoinComma : List JValue → String
  | [] => ""
  | [x] => jsElemString x
  | x :: y :: rest => jsElemString x ++ "," ++ jsJoinComma (y :: rest)
end

/-- Model of value.join with comma-space, the array case of formatValue. -/
def jsArrayJoin : List JValue → String
  | [] => ""
  | [x] => jsElemString x
  | x :: y :: rest => jsElemString x ++ ", " ++ jsArrayJoin (y :: rest)

/-- Default stringification of formatValue (lines 150-162): null and
undefined become the empty string, arrays are comma-joined, other objects
are JSON-serialized, scalars take their natural string form. -/
def defaultStringify : JValue → String
  | JValue.nullV => ""
  | JValue.arrV xs => jsArrayJoin xs
  | JValue.objV fs => jsonStringify (JValue.objV fs)
  | JValue.strV s => s
  | JValue.numV n => toString n
  | JValue.boolV b => if b then "true" else "false"

/-- Model of formatValue (lines 145-163): a named formatter present in
the formatter map is applied, otherwise default stringification. -/
def formatValue (formatters : List (String × (JValue → String)))
    (value : JValue) (formatterName : Option String) : String :=
  match formatterName with
  | some name =>
    match List.lookup name formatters with
    | some f => f value
    | none => defaultStringify value
  | none => defaultStringify value

/-- Decimal digits to a number, most significant first. -/
def digitsToNat : List Char → Nat → Nat
  | [], acc => acc
  | c :: cs, acc => digitsToNat cs (acc * 10 + (c.toNat - 48))

/-- Array index access arr of key, defined only for canonical decimal
index strings. -/
def jsArrayIndex (xs : List JValue) (key : String) : Option JValue :=
  if key.data ≠ [] ∧ (∀ c ∈ key.data, c.isDigit) then
    if toString (digitsToNat key.data 0) = key then xs.get? (digitsToNat key.data 0)
    else none
  else none

/-- Property access acc of key on a JavaScript value: raises a TypeError
on null, own-property lookup on objects, index lookup on arrays,
undefined otherwise. -/
def jGet : JValue → String → Except Unit (Option JValue)
  | JValue.nullV, _ => Except.error ()
  | JValue.objV fields, key => Except.ok (List.lookup key fields)
  | JValue.arrV xs, key => Except.ok (jsArrayIndex xs key)
  | _, _ => Except.ok none

/-- Model of getNestedValue (lines 137-142): walk the dot-separated path,
keeping undefined once it appears; property access on null raises a
TypeError that propagates. -/
def getNestedValue (obj : Option JValue) (path : List String) :
    Except Unit (Option JValue) :=
  match path with
  | [] => Except.ok obj
  | key :: rest =>
    match obj with
    | none => Except.ok none
    | some v =>
      match jGet v key with
      | Except.error e => Except.error e
      | Except.ok next => getNestedValue next rest

/-- Helper for splitDot: prepend one character to a split-on-dot result. -/
def splitDotCons (c : Char) : List (List Char) → List (List Char)
  | [] => [[]]
  | r :: rs => if c = '.' then [] :: r :: rs else (c :: r) :: rs

/-- Model of JavaScript split for the dot separator. -/
def splitDot : List Char → List (List Char)
  | [] => [[]]
  | c :: cs => splitDotCons c (splitDot cs)

/-- The dot-separated path of a placeholder variable, after trimming. -/
def pathOf (varName : String) : List String :=
  (splitDot (jsTrim varName).data).map String.mk

/-- Model of the replace callback (lines 168-188): resolve the trimmed
dot-path first against state, then against defaultValues; if still
undefined return the original placeholder text with the warning flag set;
otherwise format the resolved value. -/
def replaceVariable (state defaultValues : JValue)
    (formatters : List (String × (JValue → String)))
    (varName : String) (formatter : Option String) :
    Except Unit (String × Bool) :=
  match getNestedValue (some state) (pathOf varName) with
  | Except.error e => Except.error e
  | Except.ok firstTry =>
    match (match firstTry with
      | some v => Except.ok (some v)
      | none => getNestedValue (some defaultValues) (pathOf varName)) with
    | Except.error e => Except.error e
    | Except.ok none =>
      Except.ok ("\x7b\x7b" ++ varName ++
        (match formatter with | some f => "|" ++ f | none => "") ++
        "\x7d\x7d", true)
    | Except.ok (some value) =>
      Except.ok (formatValue formatters value formatter, false)

/-- Character allowed inside the variable capture of the placeholder
regex: anything but a closing brace or a bar. -/
def notBraceBar (c : Char) : Bool :=
  c != rbrace && c != barChar

/-- Character allowed inside the formatter capture: anything but a
closing brace. -/
def notBrace (c : Char) : Bool :=
  c != rbrace

/-- One attempted match of the placeholder regex at the head of the
character list; on success returns the variable capture, the optional
formatter capture and the number of characters consumed (at least 5). -/
def tryMatch (l : List Char) : Option (String × Option String × Nat) :=
  match l with
  | c1 :: c2 :: rest =>
    if c1 = lbrace ∧ c2 = lbrace then
      let varPart := rest.takeWhile notBraceBar
      if varPart.isEmpty then none
      else
        match rest.dropWhile notBraceBar with
        | d1 :: dtail =>
          if d1 = rbrace then
            match dtail with
            | d2 :: _ =>
              if d2 = rbrace then
                some (String.mk varPart, none, varPart.length + 4)
              else none
            | [] => none
          else if d1 = barChar then
            let fmtPart := dtail.takeWhile notBrace
            if fmtPart.isEmpty then none
            else
              match dtail.dropWhile notBrace with
              | e1 :: e2 :: _ =>
                if e1 = rbrace ∧ e2 = rbrace then
                  some (String.mk varPart, some (String.mk fmtPart),
                    varPart.length + fmtPart.length + 5)
                else none
              | _ => none
          else none
        | [] => none
    else none
  | _ => none

/-- The global replace loop of the placeholder regex: at each position
try to match; on a match invoke the callback (an exception from it aborts
the whole replace) and continue right after the consumed characters
(drop of n - 1 on the tail, with n at least 5 consumed), otherwise copy
one character.  Returns the output characters together with the number of
unresolved-placeholder warnings. -/
def scanTemplate (repl : String → Option String → Except Unit (String × Bool)) :
    List Char → Except Unit (List Char × Nat)
  | [] => Except.ok ([], 0)
  | c :: cs =>
    match tryMatch (c :: cs) with
    | some (v, f, n) =>
      match repl v f with
      | Except.error e => Except.error e
      | Except.ok (r, w) =>
        match scanTemplate repl (cs.drop (n - 1)) with
        | Except.error e => Except.error e
        | Except.ok (out, wc) =>
          Except.ok (r.data ++ out, (if w then 1 else 0) + wc)
    | none =>
      match scanTemplate repl cs with
      | Except.error e => Except.error e
      | Except.ok (out, wc) => Except.ok (c :: out, wc)
termination_by l => l.length
decreasing_by
  · simp only [List.length_drop, List.length_cons]
    omega
  · simp

/-- Suffix appended to a placeholder variable for an optional formatter
name. -/
def fmtSuffix : Option String → String
  | some f => "|" ++ f
  | none => ""

/-- Parameters of composeContext. -/
structure ComposeParams where
  state : JValue
  template : String
  defaultValues : JValue
  formatters : List (String × (JValue → String))

/-- Model of composeContext (src/unnamed/part_000 lines 133-192): replace
every placeholder of the template through replaceVariable.  The result
carries the composed string and the number of unresolved-placeholder
warnings; a TypeError raised by a null property access during resolution
propagates as Except.error. -/
def composeContext (params : ComposeParams) : Except Unit (String × Nat) :=
  match scanTemplate
      (replaceVariable params.state params.defaultValues params.formatters)
      params.template.data with
  | Except.error e => Except.error e
  | Except.ok (out, w) => Except.ok (String.mk out, w)


/- ## Theorems -/

/-- Claim C5: a message whose text contains an explicit mention of the
agent's handle yields RESPOND by rule 1, regardless of chat type, chat
state, compose outcome or generation outcome, and without invoking the
generation delegate (second component false). -/
theorem shouldRespond_mention_short_circuit
    (msg : TgMessage) (botUsername : String) (chatState : Option ChatState)
    (composeOut : Except Unit String) (gen : GenOutcome) (t : String)
    (htext : msg.text = some t)
    (hmention : strIncludes t ("@" ++ botUsername) = true) :
    shouldRespond msg botUsername chatState composeOut gen =
      Except.ok (true, false) := by
  unfold shouldRespond isMessageForMe
  rw [htext]
  simp [hmention]

/-- Witness for shouldRespond_mention_short_circuit: the spec's direct
mention scenario in a group chat with an existing chat state. -/
theorem shouldRespond_mention_short_circuit_witness :
    (⟨some "@agentbot hello there", none, "group", "1"⟩ : TgMessage).text =
        some "@agentbot hello there" ∧
    strIncludes "@agentbot hello there" ("@" ++ "agentbot") = true ∧
    shouldRespond ⟨some "@agentbot hello there", none, "group", "1"⟩ "agentbot"
        (some ⟨none, 0, []⟩) (Except.ok "ctx") GenOutcome.threw =
      Except.ok (true, false) :=
  ⟨rfl, by decide,
    shouldRespond_mention_short_circuit
      ⟨some "@agentbot hello there", none, "group", "1"⟩ "agentbot"
      (some ⟨none, 0, []⟩) (Except.ok "ctx") GenOutcome.threw
      "@agentbot hello there" rfl (by decide)⟩

/-- Claim C2: when the generation delegate throws, generateShouldRespond
returns IGNORE, and whenever _shouldRespond actually invoked the delegate
(second component true) under a throwing delegate, its decision is false
(IGNORE), never true (RESPOND). -/
theorem shouldRespond_gen_exception_ignore :
    generateShouldRespond GenOutcome.threw = ("IGNORE", false) ∧
    ∀ (msg : TgMessage) (botUsername : String) (chatState : Option ChatState)
      (composeOut : Except Unit String) (d : Bool),
      shouldRespond msg botUsername chatState composeOut GenOutcome.threw =
        Except.ok (d, true) → d = false := by
  refine ⟨rfl, ?_⟩
  intro msg u cs co d h
  unfold shouldRespond at h
  split at h <;> try simp_all
  split at h <;> try simp_all
  split at h <;> try simp_all
  split at h <;> try simp_all
  split at h <;> simp_all [generateShouldRespond]

/-- Witness for shouldRespond_gen_exception_ignore: a plain group text
message with no chat state, where the delegate is invoked and throws. -/
theorem shouldRespond_gen_exception_ignore_witness :
    shouldRespond ⟨some "hi all", none, "group", "1"⟩ "agentbot" none
        (Except.ok "ctx") GenOutcome.threw = Except.ok (false, true) ∧
    false = false :=
  ⟨by decide,
    shouldRespond_gen_exception_ignore.2 ⟨some "hi all", none, "group", "1"⟩
      "agentbot" none (Except.ok "ctx") false (by decide)⟩

/-- Claim C1 is false on the code: for a group-chat text message with no
mention, a ChatState that exists but whose currentHandler is unset leads
_shouldRespond to return the context-continuation result (IGNORE) without
invoking the generation delegate, not to delegate to generation as the
claim states (the delegate flag is false even though the generation
oracle would have answered RESPOND). -/
theorem shouldRespond_inactive_handler_counterexample :
    shouldRespond ⟨some "hello everyone", none, "group", "42"⟩ "agentbot"
        (some ⟨none, 0, []⟩) (Except.ok "ctx")
        (GenOutcome.found (some "RESPOND")) = Except.ok (false, false) ∧
    Except.map Prod.snd
        (shouldRespond ⟨some "hello everyone", none, "group", "42"⟩ "agentbot"
          (some ⟨none, 0, []⟩) (Except.ok "ctx")
          (GenOutcome.found (some "RESPOND"))) ≠ Except.ok true := by decide

/-- Claim C1 (amended): rule 3 applies whenever a ChatState exists for the
chat, whether or not its currentHandler is set: for a group-chat message
that does not mention the agent's handle, _shouldRespond returns the
context-continuation result (IGNORE when currentHandler is unset) and
never invokes the generation delegate; rule 4 is reached only when no
ChatState exists. -/
theorem shouldRespond_chatState_precedence
    (msg : TgMessage) (botUsername : String) (cs : ChatState)
    (composeOut : Except Unit String) (gen : GenOutcome) (t : String)
    (htext : msg.text = some t)
    (hmention : strIncludes t ("@" ++ botUsername) = false)
    (hgroup : msg.chatType ≠ "private") :
    shouldRespond msg botUsername (some cs) composeOut gen =
      Except.ok (cs.currentHandler == some "telegramMessageHandler", false) := by
  unfold shouldRespond isMessageForMe shouldRespondBasedOnContext
  rw [htext]
  simp [hmention, hgroup]

/-- Witness for shouldRespond_chatState_precedence: group message, no
mention, chat state present with unset handler. -/
theorem shouldRespond_chatState_precedence_witness :
    strIncludes "hello everyone" ("@" ++ "agentbot") = false ∧
    shouldRespond ⟨some "hello everyone", none, "group", "1"⟩ "agentbot"
        (some ⟨none, 0, []⟩) (Except.ok "ctx")
        (GenOutcome.found (some "RESPOND")) =
      Except.ok ((⟨none, 0, []⟩ : ChatState).currentHandler ==
        some "telegramMessageHandler", false) :=
  ⟨by decide,
    shouldRespond_chatState_precedence ⟨some "hello everyone", none, "group", "1"⟩
      "agentbot" ⟨none, 0, []⟩ (Except.ok "ctx")
      (GenOutcome.found (some "RESPOND")) "hello everyone" rfl (by decide)
      (by decide)⟩

/-- Claim C6 is false on the code for empty model output: an output that
trims to the empty string is neither RESPOND nor IGNORE, yet the
JavaScript falsy-default (the or with IGNORE) coerces it to IGNORE before
the validity check, so no warning is emitted (warning flag false). -/
theorem generateShouldRespond_empty_no_warning :
    jsToUpper (jsTrim "   ") ≠ "RESPOND" ∧
    jsToUpper (jsTrim "   ") ≠ "IGNORE" ∧
    generateShouldRespond (GenOutcome.found (some "   ")) =
      ("IGNORE", false) := by decide

/-- Claim C6 (amended): when the trimmed, uppercased output is nonempty
and differs from both RESPOND and IGNORE (for example STOP or free text),
generateShouldRespond coerces the decision to IGNORE and emits the
invalid-response warning; an output that trims to empty is defaulted to
IGNORE silently. -/
theorem generateShouldRespond_malformed_coerced
    (t : String)
    (hr : jsToUpper (jsTrim t) ≠ "RESPOND")
    (hi : jsToUpper (jsTrim t) ≠ "IGNORE")
    (hne : jsToUpper (jsTrim t) ≠ "") :
    generateShouldRespond (GenOutcome.found (some t)) = ("IGNORE", true) := by
  unfold generateShouldRespond
  simp [hne, hr, hi]

/-- Witness for generateShouldRespond_malformed_coerced at the STOP token. -/
theorem generateShouldRespond_malformed_coerced_witness :
    jsToUpper (jsTrim "stop") ≠ "RESPOND" ∧
    jsToUpper (jsTrim "stop") ≠ "IGNORE" ∧
    jsToUpper (jsTrim "stop") ≠ "" ∧
    generateShouldRespond (GenOutcome.found (some "stop")) = ("IGNORE", true) :=
  ⟨by decide, by decide, by decide,
    generateShouldRespond_malformed_coerced "stop" (by decide) (by decide)
      (by decide)⟩

/-- Helper: splitNl never returns an empty list of pieces. -/
theorem splitNl_ne_nil (l : List Char) : splitNl l ≠ [] := by
  cases l with
  | nil => simp [splitNl]
  | cons c cs =>
    simp only [splitNl]
    cases splitNl cs with
    | nil => simp [splitNlCons]
    | cons r rs =>
      by_cases hc : c = '\n' <;> simp [splitNlCons, hc]

/-- Helper: joining the pieces of splitNl with newlines gives back the
original character list. -/
theorem joinNlC_splitNl (l : List Char) : joinNlC (splitNl l) = l := by
  induction l with
  | nil => simp [splitNl, joinNlC]
  | cons c cs ih =>
    simp only [splitNl]
    cases hs : splitNl cs with
    | nil => exact absurd hs (splitNl_ne_nil cs)
    | cons r rs =>
      rw [hs] at ih
      by_cases hc : c = '\n'
      · subst hc
        simp only [splitNlCons, if_pos rfl, joinNlC]
        simpa using ih
      · simp only [splitNlCons, if_neg hc]
        cases rs with
        | nil => simp_all [joinNlC]
        | cons d ds => simp_all [joinNlC]

/-- Helper: no piece produced by splitNl contains a newline. -/
theorem splitNl_no_newline (l : List Char) :
    ∀ p ∈ splitNl l, '\n' ∉ p := by
  induction l with
  | nil => simp [splitNl]
  | cons c cs ih =>
    simp only [splitNl]
    cases hs : splitNl cs with
    | nil => exact absurd hs (splitNl_ne_nil cs)
    | cons r rs =>
      rw [hs] at ih
      by_cases hc : c = '\n'
      · intro p hp
        simp only [splitNlCons] at hp
        rw [if_pos hc, List.mem_cons] at hp
        rcases hp with hp | hp
        · simp [hp]
        · exact ih p hp
      · intro p hp
        simp only [splitNlCons] at hp
        rw [if_neg hc, List.mem_cons] at hp
        rcases hp with hp | hp
        · subst hp
          intro hmem
          rw [List.mem_cons] at hmem
          rcases hmem with h | h
          · exact hc h.symm
          · exact ih r (by simp) h
        · exact ih p (by simp [hp])

/-- Helper: joinNlC of a cons with a nonempty tail inserts one newline. -/
theorem joinNlC_cons (x : List Char) (l : List (List Char)) (hl : l ≠ []) :
    joinNlC (x :: l) = x ++ '\n' :: joinNlC l := by
  cases l with
  | nil => exact absurd rfl hl
  | cons d ds => rfl

/-- Helper: merging two pieces with an explicit newline or keeping them as
separate pieces yields the same newline join. -/
theorem joinNlC_merge (acc : List (List Char)) (a b : List Char)
    (rest : List (List Char)) :
    joinNlC (acc ++ (a ++ '\n' :: b) :: rest) = joinNlC (acc ++ a :: b :: rest) := by
  induction acc with
  | nil =>
    cases rest with
    | nil => simp [joinNlC]
    | cons r rs =>
      rw [List.nil_append, List.nil_append,
        joinNlC_cons (a ++ '\n' :: b) (r :: rs) (by simp),
        joinNlC_cons a (b :: r :: rs) (by simp),
        joinNlC_cons b (r :: rs) (by simp)]
      simp
  | cons x xs ih =>
    rw [List.cons_append, List.cons_append,
      joinNlC_cons x (xs ++ (a ++ '\n' :: b) :: rest) (by simp),
      joinNlC_cons x (xs ++ a :: b :: rest) (by simp), ih]

/-- Helper: the join invariant of the greedy packing loop, when every
remaining line is nonempty. -/
theorem splitLoopC_join (ml : Nat) (lines : List (List Char)) :
    ∀ (cur : List Char) (acc : List (List Char)),
      (∀ l ∈ lines, l ≠ []) → (cur = [] → acc = []) →
      joinNlC (splitLoopC ml lines cur acc) =
        joinNlC (acc ++ (if cur = [] then [] else [cur]) ++ lines) := by
  induction lines with
  | nil =>
    intro cur acc _ hca
    by_cases hc : cur = []
    · simp [splitLoopC, hc, hca hc]
    · simp [splitLoopC, hc]
  | cons line rest ih =>
    intro cur acc hne hca
    have hline : line ≠ [] := hne line (by simp)
    have hrest : ∀ l ∈ rest, l ≠ [] := fun l hl => hne l (by simp [hl])
    by_cases hcond : cur.length + line.length + 1 ≤ ml
    · by_cases hc : cur = []
      · subst hc
        have hacc := hca rfl
        subst hacc
        have e1 : splitLoopC ml (line :: rest) [] [] = splitLoopC ml rest line [] := by
          simp [splitLoopC, hcond]
        rw [e1, ih line [] hrest (fun h => absurd h hline), if_neg hline]
        simp
      · simp only [splitLoopC, if_pos hcond, if_neg hc]
        have hcur2 : cur ++ ['\n'] ++ line ≠ [] := by simp
        rw [ih (cur ++ ['\n'] ++ line) acc hrest (fun h => absurd h hcur2),
          if_neg hcur2]
        have h1 : cur ++ ['\n'] ++ line = cur ++ '\n' :: line := by simp
        rw [h1]
        have h2 : acc ++ [cur ++ '\n' :: line] ++ rest =
            acc ++ (cur ++ '\n' :: line) :: rest := by simp
        rw [h2, joinNlC_merge acc cur line rest]
        have h3 : acc ++ [cur] ++ line :: rest = acc ++ cur :: line :: rest := by
          simp
        rw [h3]
    · simp only [splitLoopC, if_neg hcond]
      rw [ih line (if cur = [] then acc else acc ++ [cur]) hrest
        (fun h => absurd h hline), if_neg hline]
      by_cases hc : cur = []
      · have hacc := hca hc
        simp [hc, hacc]
      · simp only [if_neg hc]
        have h4 : acc ++ [cur] ++ [line] ++ rest = acc ++ [cur] ++ line :: rest := by
          simp
        rw [h4]

/-- Helper: every chunk produced by the packing loop either fits in the
limit or is one of the original lines. -/
theorem splitLoopC_bound (ml : Nat) (linesAll : List (List Char))
    (lines : List (List Char)) :
    ∀ (cur : List Char) (acc : List (List Char)),
      (∀ l ∈ lines, l ∈ linesAll) →
      (cur.length ≤ ml ∨ cur ∈ linesAll) →
      (∀ c ∈ acc, c.length ≤ ml ∨ c ∈ linesAll) →
      ∀ c ∈ splitLoopC ml lines cur acc, c.length ≤ ml ∨ c ∈ linesAll := by
  induction lines with
  | nil =>
    intro cur acc _ hcur hacc c hc
    simp only [splitLoopC] at hc
    by_cases h : cur = []
    · rw [if_pos h] at hc
      exact hacc c hc
    · rw [if_neg h] at hc
      rcases List.mem_append.mp hc with h1 | h1
      · exact hacc c h1
      · simp at h1
        subst h1
        exact hcur
  | cons line rest ih =>
    intro cur acc hsub hcur hacc c hc
    have hlineAll : line ∈ linesAll := hsub line (by simp)
    have hrest : ∀ l ∈ rest, l ∈ linesAll := fun l hl => hsub l (by simp [hl])
    simp only [splitLoopC] at hc
    by_cases hcond : cur.length + line.length + 1 ≤ ml
    · rw [if_pos hcond] at hc
      refine ih (cur ++ (if cur = [] then [] else ['\n']) ++ line) acc hrest
        (Or.inl ?_) hacc c hc
      by_cases h : cur = [] <;> simp [h] <;> omega
    · rw [if_neg hcond] at hc
      refine ih line (if cur = [] then acc else acc ++ [cur]) hrest
        (Or.inr hlineAll) ?_ c hc
      intro d hd
      by_cases h : cur = []
      · rw [if_pos h] at hd
        exact hacc d hd
      · rw [if_neg h] at hd
        rcases List.mem_append.mp hd with h1 | h1
        · exact hacc d h1
        · simp at h1
          subst h1
          exact hcur

/-- Claim C3 is false on the code: for the input consisting of a single
newline, splitMessage returns no chunks at all (empty lines are
JavaScript-falsy and are never pushed), so joining the chunks with
newline separators yields the empty string, not the original text. -/
theorem splitMessage_reconstruction_counterexample :
    splitMessage "\n" 4096 = [] ∧
    joinNl (splitMessage "\n" 4096) = "" ∧
    joinNl (splitMessage "\n" 4096) ≠ "\n" := by decide

/-- Claim C3 (amended): provided every line of the input is nonempty,
joining the chunks returned by splitMessage with newline separators
reconstructs the original text exactly; and unconditionally, every
returned chunk either has length at most maxLength or is one of the
input's lines (hence contains no newline): an oversized line becomes its
own unsplit chunk.  (When the input contains empty lines, reconstruction
can fail, as the counterexample shows.) -/
theorem splitMessage_chunking_amended (text : String) (maxLength : Nat) :
    ((∀ l ∈ splitLines text, l ≠ "") →
      joinNl (splitMessage text maxLength) = text) ∧
    ∀ c ∈ splitMessage text maxLength,
      c.length ≤ maxLength ∨ (c ∈ splitLines text ∧ '\n' ∉ c.data) := by
  constructor
  · intro hne
    have hne2 : ∀ l ∈ splitNl text.data, l ≠ [] := by
      intro l hl h
      have hmem : String.mk l ∈ splitLines text :=
        List.mem_map_of_mem String.mk hl
      have := hne (String.mk l) hmem
      subst h
      exact this rfl
    unfold splitMessage joinNl
    rw [List.map_map]
    have hmapid : (splitLoopC maxLength (splitNl text.data) [] []).map
        (String.data ∘ String.mk) = splitLoopC maxLength (splitNl text.data) [] [] := by
      have h : String.data ∘ String.mk = id := rfl
      rw [h, List.map_id]
    rw [hmapid,
      splitLoopC_join maxLength (splitNl text.data) [] [] hne2 (fun _ => rfl)]
    have : (([] : List (List Char)) ++
        (if ([] : List Char) = [] then [] else [[]])) ++ splitNl text.data =
        splitNl text.data := by simp
    rw [this, joinNlC_splitNl]
  · intro c hc
    unfold splitMessage at hc
    rcases List.mem_map.mp hc with ⟨lc, hlc, rfl⟩
    have hb := splitLoopC_bound maxLength (splitNl text.data) (splitNl text.data)
      [] [] (fun l hl => hl) (Or.inl (by simp)) (by simp) lc hlc
    rcases hb with hb | hb
    · exact Or.inl hb
    · refine Or.inr ⟨List.mem_map_of_mem String.mk hb, ?_⟩
      exact splitNl_no_newline text.data lc hb

/-- Witness for splitMessage_chunking_amended: two two-character lines
with limit 2 give chunks that join back to the input, and the chunk ab
satisfies the length bound. -/
theorem splitMessage_chunking_amended_witness :
    joinNl (splitMessage "ab\ncd" 2) = "ab\ncd" ∧
    (("ab" : String).length ≤ 2 ∨
      ("ab" ∈ splitLines "ab\ncd" ∧ '\n' ∉ ("ab" : String).data)) :=
  ⟨(splitMessage_chunking_amended "ab\ncd" 2).1 (by decide),
   (splitMessage_chunking_amended "ab\ncd" 2).2 "ab" (by decide)⟩


/-- Helper: toInt32 always lands in the signed 32-bit range. -/
theorem toInt32_range (n : Int) :
    -2147483648 ≤ toInt32 n ∧ toInt32 n < 2147483648 := by
  unfold toInt32
  have h1 : 0 ≤ n % 4294967296 := Int.emod_nonneg n (by norm_num)
  have h2 : n % 4294967296 < 4294967296 := Int.emod_lt_of_pos n (by norm_num)
  by_cases h : n % 4294967296 < 2147483648
  · rw [if_pos h]
    omega
  · rw [if_neg h]
    omega

/-- Helper: the rolling hash stays in the signed 32-bit range. -/
theorem foldl_hashStep_range (l : List Nat) :
    ∀ acc : Int, -2147483648 ≤ acc → acc < 2147483648 →
      -2147483648 ≤ l.foldl hashStep acc ∧
        l.foldl hashStep acc < 2147483648 := by
  induction l with
  | nil => intro acc h1 h2; exact ⟨h1, h2⟩
  | cons c cs ih =>
    intro acc h1 h2
    have hr := toInt32_range (toInt32 (acc * 32) - acc + c)
    exact ih (hashStep acc c) hr.1 hr.2

/-- Helper: natToHexCore on a value below 16 to the k produces at most k
digits on top of the accumulator. -/
theorem natToHexCore_length (k : Nat) :
    ∀ (n : Nat) (acc : List Char), n < 16 ^ k →
      (natToHexCore n acc).length ≤ k + acc.length := by
  induction k with
  | zero =>
    intro n acc hn
    have h0 : n = 0 := by simpa using hn
    subst h0
    simp [natToHexCore]
  | succ k ih =>
    intro n acc hn
    cases n with
    | zero => simp [natToHexCore]
    | succ m =>
      have hdiv : (m + 1) / 16 < 16 ^ k := by
        rw [Nat.div_lt_iff_lt_mul (by norm_num : 0 < 16)]
        calc m + 1 < 16 ^ (k + 1) := hn
          _ = 16 ^ k * 16 := by ring
      have hrec := ih ((m + 1) / 16) (hexDigit ((m + 1) % 16) :: acc) hdiv
      simp only [natToHexCore]
      simp only [List.length_cons] at hrec
      omega

/-- Helper: hexDigit of a value below 16 is a lowercase hex character. -/
theorem hexDigit_hex : ∀ d : Nat, d < 16 → isHexChar (hexDigit d) = true := by
  decide

/-- Helper: every character produced by natToHexCore over a hex
accumulator is a lowercase hex character. -/
theorem natToHexCore_hex (n : Nat) :
    ∀ (acc : List Char), (∀ c ∈ acc, isHexChar c = true) →
      ∀ c ∈ natToHexCore n acc, isHexChar c = true := by
  induction n using Nat.strong_induction_on with
  | _ n ih =>
    intro acc hacc c hc
    cases n with
    | zero =>
      simp only [natToHexCore] at hc
      exact hacc c hc
    | succ m =>
      simp only [natToHexCore] at hc
      refine ih ((m + 1) / 16) (Nat.div_lt_self (Nat.succ_pos m) (by omega))
        (hexDigit ((m + 1) % 16) :: acc) ?_ c hc
      intro d hd
      rw [List.mem_cons] at hd
      rcases hd with hd | hd
      · subst hd
        exact hexDigit_hex ((m + 1) % 16) (Nat.mod_lt _ (by omega))
      · exact hacc d hd

/-- Helper: natToHex of a value below 16 to the 8 has at most 8 digits. -/
theorem natToHex_length (n : Nat) (hn : n < 4294967296) :
    (natToHex n).length ≤ 8 := by
  unfold natToHex
  by_cases h : n = 0
  · rw [if_pos h]; simp
  · rw [if_neg h]
    have := natToHexCore_length 8 n [] (by norm_num; omega)
    simpa using this

/-- Helper: every character of natToHex is a lowercase hex character. -/
theorem natToHex_hex (n : Nat) :
    ∀ c ∈ natToHex n, isHexChar c = true := by
  unfold natToHex
  by_cases h : n = 0
  · rw [if_pos h]
    intro c hc
    rw [List.mem_singleton] at hc
    subst hc
    decide
  · rw [if_neg h]
    exact natToHexCore_hex n [] (by simp)

/-- Helper: slicing any 32-character lowercase-hex list into the
8-4-4-4-12 grouping yields a 36-character string in canonical identifier
format. -/
theorem uuidFormat_of_hex32 (h : List Char) (hlen : h.length = 32)
    (hhex : ∀ c ∈ h, isHexChar c = true) :
    (h.take 8 ++ '-' :: ((h.drop 8).take 4 ++ '-' :: ((h.drop 12).take 4 ++
      '-' :: ((h.drop 16).take 4 ++ '-' :: (h.drop 20).take 12)))).length = 36 ∧
    isUuidFormat (String.mk (h.take 8 ++ '-' :: ((h.drop 8).take 4 ++
      '-' :: ((h.drop 12).take 4 ++ '-' :: ((h.drop 16).take 4 ++
      '-' :: (h.drop 20).take 12))))) = true := by
  have hA : (h.take 8).length = 8 := by
    rw [List.length_take, hlen]
    omega
  have hB : ((h.drop 8).take 4).length = 4 := by
    rw [List.length_take, List.length_drop, hlen]
    omega
  have hC : ((h.drop 12).take 4).length = 4 := by
    rw [List.length_take, List.length_drop, hlen]
    omega
  have hD : ((h.drop 16).take 4).length = 4 := by
    rw [List.length_take, List.length_drop, hlen]
    omega
  have hE : ((h.drop 20).take 12).length = 12 := by
    rw [List.length_take, List.length_drop, hlen]
    omega
  have hLlen : (h.take 8 ++ '-' :: ((h.drop 8).take 4 ++
      '-' :: ((h.drop 12).take 4 ++ '-' :: ((h.drop 16).take 4 ++
      '-' :: (h.drop 20).take 12)))).length = 36 := by
    simp only [List.length_append, List.length_cons, hA, hB, hC, hD, hE]
  refine ⟨hLlen, ?_⟩
  have memA : ∀ c ∈ h.take 8, isHexChar c = true :=
    fun c hc => hhex c ((List.take_sublist 8 h).subset hc)
  have memB : ∀ c ∈ (h.drop 8).take 4, isHexChar c = true :=
    fun c hc => hhex c ((List.drop_sublist 8 h).subset
      ((List.take_sublist 4 (h.drop 8)).subset hc))
  have memC : ∀ c ∈ (h.drop 12).take 4, isHexChar c = true :=
    fun c hc => hhex c ((List.drop_sublist 12 h).subset
      ((List.take_sublist 4 (h.drop 12)).subset hc))
  have memD : ∀ c ∈ (h.drop 16).take 4, isHexChar c = true :=
    fun c hc => hhex c ((List.drop_sublist 16 h).subset
      ((List.take_sublist 4 (h.drop 16)).subset hc))
  have memE : ∀ c ∈ (h.drop 20).take 12, isHexChar c = true :=
    fun c hc => hhex c ((List.drop_sublist 20 h).subset
      ((List.take_sublist 12 (h.drop 20)).subset hc))
  unfold isUuidFormat
  have e8 : (h.take 8 ++ '-' :: ((h.drop 8).take 4 ++
      '-' :: ((h.drop 12).take 4 ++ '-' :: ((h.drop 16).take 4 ++
      '-' :: (h.drop 20).take 12)))).drop 8 =
      '-' :: ((h.drop 8).take 4 ++ '-' :: ((h.drop 12).take 4 ++
      '-' :: ((h.drop 16).take 4 ++ '-' :: (h.drop 20).take 12))) :=
    List.drop_left' hA
  have t8 : (h.take 8 ++ '-' :: ((h.drop 8).take 4 ++
      '-' :: ((h.drop 12).take 4 ++ '-' :: ((h.drop 16).take 4 ++
      '-' :: (h.drop 20).take 12)))).take 8 = h.take 8 :=
    List.take_left' hA
  have e9 : (h.take 8 ++ '-' :: ((h.drop 8).take 4 ++
      '-' :: ((h.drop 12).take 4 ++ '-' :: ((h.drop 16).take 4 ++
      '-' :: (h.drop 20).take 12)))).drop 9 =
      (h.drop 8).take 4 ++ '-' :: ((h.drop 12).take 4 ++
      '-' :: ((h.drop 16).take 4 ++ '-' :: (h.drop 20).take 12)) := by
    rw [show (9 : Nat) = 8 + 1 from rfl, ← List.drop_drop, e8]
    rfl
  have e13 : (h.take 8 ++ '-' :: ((h.drop 8).take 4 ++
      '-' :: ((h.drop 12).take 4 ++ '-' :: ((h.drop 16).take 4 ++
      '-' :: (h.drop 20).take 12)))).drop 13 =
      '-' :: ((h.drop 12).take 4 ++ '-' :: ((h.drop 16).take 4 ++
      '-' :: (h.drop 20).take 12)) := by
    rw [show (13 : Nat) = 9 + 4 from rfl, ← List.drop_drop, e9,
      List.drop_left' hB]
  have e14 : (h.take 8 ++ '-' :: ((h.drop 8).take 4 ++
      '-' :: ((h.drop 12).take 4 ++ '-' :: ((h.drop 16).take 4 ++
      '-' :: (h.drop 20).take 12)))).drop 14 =
      (h.drop 12).take 4 ++ '-' :: ((h.drop 16).take 4 ++
      '-' :: (h.drop 20).take 12) := by
    rw [show (14 : Nat) = 13 + 1 from rfl, ← List.drop_drop, e13]
    rfl
  have e18 : (h.take 8 ++ '-' :: ((h.drop 8).take 4 ++
      '-' :: ((h.drop 12).take 4 ++ '-' :: ((h.drop 16).take 4 ++
      '-' :: (h.drop 20).take 12)))).drop 18 =
      '-' :: ((h.drop 16).take 4 ++ '-' :: (h.drop 20).take 12) := by
    rw [show (18 : Nat) = 14 + 4 from rfl, ← List.drop_drop, e14,
      List.drop_left' hC]
  have e19 : (h.take 8 ++ '-' :: ((h.drop 8).take 4 ++
      '-' :: ((h.drop 12).take 4 ++ '-' :: ((h.drop 16).take 4 ++
      '-' :: (h.drop 20).take 12)))).drop 19 =
      (h.drop 16).take 4 ++ '-' :: (h.drop 20).take 12 := by
    rw [show (19 : Nat) = 18 + 1 from rfl, ← List.drop_drop, e18]
    rfl
  have e23 : (h.take 8 ++ '-' :: ((h.drop 8).take 4 ++
      '-' :: ((h.drop 12).take 4 ++ '-' :: ((h.drop 16).take 4 ++
      '-' :: (h.drop 20).take 12)))).drop 23 =
      '-' :: (h.drop 20).take 12 := by
    rw [show (23 : Nat) = 19 + 4 from rfl, ← List.drop_drop, e19,
      List.drop_left' hD]
  have e24 : (h.take 8 ++ '-' :: ((h.drop 8).take 4 ++
      '-' :: ((h.drop 12).take 4 ++ '-' :: ((h.drop 16).take 4 ++
      '-' :: (h.drop 20).take 12)))).drop 24 = (h.drop 20).take 12 := by
    rw [show (24 : Nat) = 23 + 1 from rfl, ← List.drop_drop, e23]
    rfl
  dsimp only
  rw [t8, e8, e9, e13, e14, e18, e19, e23, e24, hLlen,
    List.take_left' hB, List.take_left' hC, List.take_left' hD,
    List.all_eq_true.mpr memA, List.all_eq_true.mpr memB,
    List.all_eq_true.mpr memC, List.all_eq_true.mpr memD,
    List.all_eq_true.mpr memE]
  rfl

/-- Claim C8: stringToUuid is deterministic (same input gives the same
identifier) and its result is always exactly 36 characters long, in the
canonical 8-4-4-4-12 grouped lowercase-hex identifier format. -/
theorem stringToUuid_deterministic_format (s : String) :
    stringToUuid s = stringToUuid s ∧
    (stringToUuid s).length = 36 ∧
    isUuidFormat (stringToUuid s) = true := by
  refine ⟨rfl, ?_⟩
  have hrange := foldl_hashStep_range ((s.data.map utf16Units).flatten) 0
    (by norm_num) (by norm_num)
  have hlt : (((s.data.map utf16Units).flatten).foldl hashStep 0).natAbs <
      4294967296 := by omega
  have hlen8 := natToHex_length _ hlt
  have hplen : (List.replicate
      (32 - (natToHex (((s.data.map utf16Units).flatten).foldl
        hashStep 0).natAbs).length) '0' ++
      natToHex (((s.data.map utf16Units).flatten).foldl
        hashStep 0).natAbs).length = 32 := by
    rw [List.length_append, List.length_replicate]
    omega
  have hphex : ∀ c ∈ List.replicate
      (32 - (natToHex (((s.data.map utf16Units).flatten).foldl
        hashStep 0).natAbs).length) '0' ++
      natToHex (((s.data.map utf16Units).flatten).foldl
        hashStep 0).natAbs, isHexChar c = true := by
    intro c hc
    rcases List.mem_append.mp hc with h | h
    · have := List.eq_of_mem_replicate h
      subst this
      decide
    · exact natToHex_hex _ c h
  exact uuidFormat_of_hex32 _ hplen hphex

/-- Claim C9: the chunks are sent in splitMessage order; only the first
sent chunk carries reply parameters (any chunk beyond the first has no
reply-threading, and the first replies to the original message id when it
is truthy); the memory records created for the sent chunks keep the chunk
texts in order, tag every chunk except the last with CONTINUE, and keep
the response's original action on the last chunk. -/
theorem sendMessageInChunks_reply_continue (content : Content)
    (replyTo : Option Nat) (messageId : String) :
    ((sendMessageInChunks content replyTo).map SentMsg.text =
      splitMessage (content.text.getD "") 4096) ∧
    (∀ i, ∀ h : i < (sendMessageInChunks content replyTo).length, 0 < i →
      ((sendMessageInChunks content replyTo).get ⟨i, h⟩).replyTo = none) ∧
    (∀ h : 0 < (sendMessageInChunks content replyTo).length,
      jsTruthyNat replyTo = true →
      ((sendMessageInChunks content replyTo).get ⟨0, h⟩).replyTo = replyTo) ∧
    ((recordSentMessages (sendMessageInChunks content replyTo) content
        messageId).map ChunkMemory.text =
      (sendMessageInChunks content replyTo).map SentMsg.text) ∧
    (∀ i, ∀ h : i < (recordSentMessages (sendMessageInChunks content replyTo)
        content messageId).length,
      i < (sendMessageInChunks content replyTo).length - 1 →
      ((recordSentMessages (sendMessageInChunks content replyTo) content
        messageId).get ⟨i, h⟩).action = some "CONTINUE") ∧
    (∀ i, ∀ h : i < (recordSentMessages (sendMessageInChunks content replyTo)
        content messageId).length,
      i = (sendMessageInChunks content replyTo).length - 1 →
      ((recordSentMessages (sendMessageInChunks content replyTo) content
        messageId).get ⟨i, h⟩).action = content.action) := by
  refine ⟨?_, ?_, ?_, ?_, ?_, ?_⟩
  · unfold sendMessageInChunks
    rw [List.map_map]
    rw [show (SentMsg.text ∘ fun p : Nat × String =>
      (⟨p.2, if p.1 == 0 && jsTruthyNat replyTo then replyTo else none⟩ :
        SentMsg)) = Prod.snd from rfl]
    exact List.enum_map_snd _
  · intro i h hi
    have hne : i ≠ 0 := Nat.pos_iff_ne_zero.mp hi
    simp only [sendMessageInChunks, List.get_eq_getElem, List.getElem_map,
      List.getElem_enum]
    simp [hne]
  · intro h ht
    simp only [sendMessageInChunks, List.get_eq_getElem, List.getElem_map,
      List.getElem_enum]
    simp [ht]
  · unfold recordSentMessages
    rw [List.map_map]
    rw [show (ChunkMemory.text ∘ fun p : Nat × SentMsg =>
      (⟨p.2.text,
        if p.1 != (sendMessageInChunks content replyTo).length - 1
        then some "CONTINUE" else content.action,
        messageId⟩ : ChunkMemory)) = (SentMsg.text ∘ Prod.snd) from rfl]
    rw [← List.map_map, List.enum_map_snd]
  · intro i h hi
    have hne : i ≠ (sendMessageInChunks content replyTo).length - 1 := by omega
    simp only [recordSentMessages, List.get_eq_getElem, List.getElem_map,
      List.getElem_enum]
    simp [hne]
  · intro i h hi
    simp only [recordSentMessages, List.get_eq_getElem, List.getElem_map,
      List.getElem_enum]
    simp [hi]

/-- Helper: splitting a newline-free character list yields that single
piece. -/
theorem splitNl_no_nl (l : List Char) (h : '\n' ∉ l) : splitNl l = [l] := by
  induction l with
  | nil => rfl
  | cons c cs ih =>
    have hc : ¬(c = '\n') := fun e => h (by simp [e])
    have hcs : '\n' ∉ cs := fun e => h (by simp [e])
    simp only [splitNl, ih hcs, splitNlCons]
    rw [if_neg hc]


/-- Helper: the packing loop on two nonempty lines, where the first fits
and the second does not fit together with it, yields exactly those two
lines as chunks. -/
theorem splitLoopC_two (ml : Nat) (l1 l2 : List Char)
    (h1 : l1.length + 1 ≤ ml) (h2 : ¬(l1.length + l2.length + 1 ≤ ml))
    (hl1 : l1 ≠ []) (hl2 : l2 ≠ []) :
    splitLoopC ml [l1, l2] [] [] = [l1, l2] := by
  simp [splitLoopC, h1, h2, hl1, hl2]

/-- Helper: the spec's chunking boundary scenario, one short line followed
by a line of 4096 characters, splits into exactly those two chunks. -/
theorem chunksBoundary :
    splitMessage (String.mk ('a' :: '\n' :: List.replicate 4096 'b')) 4096 =
      ["a", String.mk (List.replicate 4096 'b')] := by
  have hL : (List.replicate 4096 'b').length = 4096 :=
    List.length_replicate 4096 'b'
  have hnb : '\n' ∉ List.replicate 4096 'b' := by
    intro hmem
    exact absurd (List.eq_of_mem_replicate hmem) (by decide)
  have hl2 : List.replicate 4096 'b' ≠ [] := by
    intro e
    have := congrArg List.length e
    rw [hL] at this
    simp at this
  have hsplit : splitNl ('a' :: '\n' :: List.replicate 4096 'b') =
      [['a'], List.replicate 4096 'b'] := by
    show splitNlCons 'a' (splitNlCons '\n' (splitNl (List.replicate 4096 'b'))) = _
    rw [splitNl_no_nl _ hnb]
    rfl
  unfold splitMessage
  rw [show (String.mk ('a' :: '\n' :: List.replicate 4096 'b')).data =
    'a' :: '\n' :: List.replicate 4096 'b' from rfl, hsplit]
  rw [splitLoopC_two 4096 ['a'] (List.replicate 4096 'b')
    (by decide) (by rw [hL]; decide) (by decide) hl2]
  rfl

/-- Helper: the sent chunks of the boundary scenario with a truthy reply
id: the first chunk replies to it, the second does not. -/
theorem sentBoundary :
    sendMessageInChunks
      ⟨some (String.mk ('a' :: '\n' :: List.replicate 4096 'b')), some "DONE"⟩
      (some 7) =
      [⟨"a", some 7⟩, ⟨String.mk (List.replicate 4096 'b'), none⟩] := by
  unfold sendMessageInChunks
  rw [show ((⟨some (String.mk ('a' :: '\n' :: List.replicate 4096 'b')),
      some "DONE"⟩ : Content).text.getD "") =
    String.mk ('a' :: '\n' :: List.replicate 4096 'b') from rfl, chunksBoundary]
  rfl

/-- Helper: the sent-chunk list of the boundary scenario has two chunks. -/
theorem sentBoundary_len :
    (sendMessageInChunks
      ⟨some (String.mk ('a' :: '\n' :: List.replicate 4096 'b')), some "DONE"⟩
      (some 7)).length = 2 := by
  rw [sentBoundary]
  rfl

/-- Helper: the memory record list of the boundary scenario has two
records. -/
theorem recordBoundary_len :
    (recordSentMessages (sendMessageInChunks
      ⟨some (String.mk ('a' :: '\n' :: List.replicate 4096 'b')), some "DONE"⟩
      (some 7))
      ⟨some (String.mk ('a' :: '\n' :: List.replicate 4096 'b')), some "DONE"⟩
      "mid").length = 2 := by
  unfold recordSentMessages
  rw [sentBoundary]
  rfl

/-- Witness for sendMessageInChunks_reply_continue at the spec's chunking
boundary scenario (a short line plus a 4096-character line, reply id 7):
the second chunk carries no reply-threading, the first replies to id 7,
the first record is tagged CONTINUE and the last keeps the DONE action. -/
theorem sendMessageInChunks_reply_continue_witness :
    jsTruthyNat (some 7) = true ∧
    ((sendMessageInChunks
      ⟨some (String.mk ('a' :: '\n' :: List.replicate 4096 'b')), some "DONE"⟩
      (some 7)).get ⟨1, by have h := sentBoundary_len; omega⟩).replyTo = none ∧
    ((sendMessageInChunks
      ⟨some (String.mk ('a' :: '\n' :: List.replicate 4096 'b')), some "DONE"⟩
      (some 7)).get ⟨0, by have h := sentBoundary_len; omega⟩).replyTo = some 7 ∧
    ((recordSentMessages (sendMessageInChunks
      ⟨some (String.mk ('a' :: '\n' :: List.replicate 4096 'b')), some "DONE"⟩
      (some 7))
      ⟨some (String.mk ('a' :: '\n' :: List.replicate 4096 'b')), some "DONE"⟩
      "mid").get ⟨0, by have h := recordBoundary_len; omega⟩).action = some "CONTINUE" ∧
    ((recordSentMessages (sendMessageInChunks
      ⟨some (String.mk ('a' :: '\n' :: List.replicate 4096 'b')), some "DONE"⟩
      (some 7))
      ⟨some (String.mk ('a' :: '\n' :: List.replicate 4096 'b')), some "DONE"⟩
      "mid").get ⟨1, by have h := recordBoundary_len; omega⟩).action = some "DONE" :=
  ⟨rfl,
   (sendMessageInChunks_reply_continue
     ⟨some (String.mk ('a' :: '\n' :: List.replicate 4096 'b')), some "DONE"⟩
     (some 7) "mid").2.1 1 (by have h := sentBoundary_len; omega) (by omega),
   (sendMessageInChunks_reply_continue
     ⟨some (String.mk ('a' :: '\n' :: List.replicate 4096 'b')), some "DONE"⟩
     (some 7) "mid").2.2.1 (by have h := sentBoundary_len; omega) rfl,
   (sendMessageInChunks_reply_continue
     ⟨some (String.mk ('a' :: '\n' :: List.replicate 4096 'b')), some "DONE"⟩
     (some 7) "mid").2.2.2.2.1 0 (by have h := recordBoundary_len; omega)
     (by have h := sentBoundary_len; omega),
   (sendMessageInChunks_reply_continue
     ⟨some (String.mk ('a' :: '\n' :: List.replicate 4096 'b')), some "DONE"⟩
     (some 7) "mid").2.2.2.2.2 1 (by have h := recordBoundary_len; omega)
     (by have h := sentBoundary_len; omega)⟩

/-- Helper: appending to a nonempty string stays nonempty. -/
theorem strAppend_ne_empty_left (a b : String) (ha : a ≠ "") : a ++ b ≠ "" := by
  intro e
  apply ha
  have hd : a.data ++ b.data = ([] : List Char) := congrArg String.data e
  have ha2 : a.data = [] := (List.append_eq_nil.mp hd).1
  cases a with
  | mk l =>
    cases ha2
    rfl

/-- Claim C10: for every message lacking a text field (for example a
photo or document message carrying only a caption), _isMessageForMe
dereferences message.text and raises a TypeError, so _shouldRespond
propagates the exception for every chat type, chat state, caption content
(mentions of the handle included) and generation outcome, never reaching
rules 2-5 and never returning RESPOND by rule 1 for a caption mention;
the exception is absorbed only by the pipeline's top-level catch, which
ends handleMessage as errorCaught with nothing sent. -/
theorem shouldRespond_missing_text_throws
    (msg : TgMessage) (botUsername : String) (cs : Option ChatState)
    (cfg : TgConfig) (interestChats : List (String × ChatState))
    (userRec : MsgRecord) (now : Nat) (imageDesc : Option String)
    (composeOut : Except Unit String) (gen : GenOutcome)
    (respContent : Option Content) (msgId : Nat) (c : String)
    (htext : msg.text = none) (hcap : msg.caption = some c) (hc : c ≠ "")
    (hbot : cfg.shouldIgnoreBotMessages = false)
    (hdm : cfg.shouldIgnoreDirectMessages = false) :
    shouldRespond msg botUsername cs composeOut gen = Except.error () ∧
    handleMessage true cfg false msg botUsername interestChats userRec now
      imageDesc composeOut gen respContent msgId =
      HandleOutcome.errorCaught := by
  have hsr : ∀ cs2 : Option ChatState,
      shouldRespond msg botUsername cs2 composeOut gen = Except.error () := by
    intro cs2
    unfold shouldRespond isMessageForMe
    rw [htext]
  refine ⟨hsr cs, ?_⟩
  unfold handleMessage
  simp only [htext, hcap, hbot, hdm, Bool.false_and]
  rw [if_neg (by simp), if_neg (by simp), if_neg (by simp)]
  cases imageDesc with
  | none =>
    rw [if_neg hc, hsr]
  | some d =>
    rw [if_neg (strAppend_ne_empty_left (c ++ " ") d
      (strAppend_ne_empty_left c " " hc)), hsr]

/-- Witness for shouldRespond_missing_text_throws: a group photo message
whose caption even mentions the agent's handle still makes the decision
engine throw, and the pipeline ends in its top-level catch. -/
theorem shouldRespond_missing_text_throws_witness :
    (⟨none, some "photo of @agentbot", "group", "5"⟩ : TgMessage).text = none ∧
    ("photo of @agentbot" : String) ≠ "" ∧
    shouldRespond ⟨none, some "photo of @agentbot", "group", "5"⟩ "agentbot"
      none (Except.ok "ctx") (GenOutcome.found (some "RESPOND")) =
      Except.error () ∧
    handleMessage true ⟨false, false⟩ false
      ⟨none, some "photo of @agentbot", "group", "5"⟩ "agentbot" []
      ⟨"u", "n", "photo of @agentbot"⟩ 0 none (Except.ok "ctx")
      (GenOutcome.found (some "RESPOND")) (some ⟨some "hi", none⟩) 3 =
      HandleOutcome.errorCaught :=
  ⟨rfl, by decide,
   (shouldRespond_missing_text_throws
     ⟨none, some "photo of @agentbot", "group", "5"⟩ "agentbot" none
     ⟨false, false⟩ [] ⟨"u", "n", "photo of @agentbot"⟩ 0 none
     (Except.ok "ctx") (GenOutcome.found (some "RESPOND"))
     (some ⟨some "hi", none⟩) 3 "photo of @agentbot" rfl rfl (by decide)
     rfl rfl).1,
   (shouldRespond_missing_text_throws
     ⟨none, some "photo of @agentbot", "group", "5"⟩ "agentbot" none
     ⟨false, false⟩ [] ⟨"u", "n", "photo of @agentbot"⟩ 0 none
     (Except.ok "ctx") (GenOutcome.found (some "RESPOND"))
     (some ⟨some "hi", none⟩) 3 "photo of @agentbot" rfl rfl (by decide)
     rfl rfl).2⟩

/-- Claim C4 is false on the code for the three-argument form: on the
texts aa, bb, aa bb the maximum-pairwise-product dot sum is 2 while the
maximum pairwise magnitude product is the square root of 2, so the
result is the square root of 2, strictly greater than 1. -/
theorem cosineSimilarity_three_way_counterexample :
    1 < cosineSimilarity "aa" "bb" (some "aa bb") := by
  have hw1 : getWords (preprocessText "aa") = ["aa"] := by decide
  have hw2 : getWords (preprocessText "bb") = ["bb"] := by decide
  have hw3 : getWords (preprocessText "aa bb") = ["aa", "bb"] := by decide
  have hu : (["aa", "bb", "aa", "bb"] : List String).dedup = ["aa", "bb"] := by
    decide
  have hc1 : (["aa"] : List String).count "aa" = 1 := by decide
  have hc2 : (["aa"] : List String).count "bb" = 0 := by decide
  have hc3 : (["bb"] : List String).count "aa" = 0 := by decide
  have hc4 : (["bb"] : List String).count "bb" = 1 := by decide
  have hc5 : (["aa", "bb"] : List String).count "aa" = 1 := by decide
  have hc6 : (["aa", "bb"] : List String).count "bb" = 1 := by decide
  have hs2 : Real.sqrt 2 ≠ 0 := by
    intro h
    rw [Real.sqrt_eq_zero'] at h
    norm_num at h
  have hs2pos : 0 < Real.sqrt 2 := Real.sqrt_pos.mpr (by norm_num)
  have h12 : (1 : ℝ) ≤ Real.sqrt 2 := by
    rw [show (1 : ℝ) = Real.sqrt 1 from Real.sqrt_one.symm]
    exact Real.sqrt_le_sqrt (by norm_num)
  simp only [cosineSimilarity, hw1, hw2, hw3]
  simp only [List.cons_append, List.nil_append, hu, List.map_cons,
    List.map_nil, List.sum_cons, List.sum_nil, List.length_cons,
    List.length_nil, hc1, hc2, hc3, hc4, hc5, hc6]
  norm_num [Real.sqrt_one]
  exact Real.lt_sqrt_of_sq_lt (by norm_num)

/-- Helper: Cauchy-Schwarz for the term-frequency sums over a
duplicate-free word list, with natural-number counts cast to the reals. -/
theorem tf_cauchy_schwarz (w1 w2 uniq : List String) (hnd : uniq.Nodup) :
    (((uniq.map (fun w => w1.count w * w2.count w)).sum : ℕ) : ℝ) ^ 2 ≤
      (((uniq.map (fun w => w1.count w * w1.count w)).sum : ℕ) : ℝ) *
      (((uniq.map (fun w => w2.count w * w2.count w)).sum : ℕ) : ℝ) := by
  have cast12 : (((uniq.map (fun w => w1.count w * w2.count w)).sum : ℕ) : ℝ) =
      uniq.toFinset.sum (fun w => (w1.count w : ℝ) * (w2.count w : ℝ)) := by
    rw [List.sum_toFinset _ hnd, Nat.cast_list_sum, List.map_map]
    congr 1
    refine List.map_congr_left (fun w _ => ?_)
    simp [Function.comp]
  have cast11 : (((uniq.map (fun w => w1.count w * w1.count w)).sum : ℕ) : ℝ) =
      uniq.toFinset.sum (fun w => (w1.count w : ℝ) * (w1.count w : ℝ)) := by
    rw [List.sum_toFinset _ hnd, Nat.cast_list_sum, List.map_map]
    congr 1
    refine List.map_congr_left (fun w _ => ?_)
    simp [Function.comp]
  have cast22 : (((uniq.map (fun w => w2.count w * w2.count w)).sum : ℕ) : ℝ) =
      uniq.toFinset.sum (fun w => (w2.count w : ℝ) * (w2.count w : ℝ)) := by
    rw [List.sum_toFinset _ hnd, Nat.cast_list_sum, List.map_map]
    congr 1
    refine List.map_congr_left (fun w _ => ?_)
    simp [Function.comp]
  rw [cast12, cast11, cast22]
  have h := Finset.sum_mul_sq_le_sq_mul_sq uniq.toFinset
    (fun w => (w1.count w : ℝ)) (fun w => (w2.count w : ℝ))
  calc (uniq.toFinset.sum (fun w => (w1.count w : ℝ) * (w2.count w : ℝ))) ^ 2 ≤
      (uniq.toFinset.sum fun w => (w1.count w : ℝ) ^ 2) *
        uniq.toFinset.sum (fun w => (w2.count w : ℝ) ^ 2) := h
    _ = _ := by
      congr 1 <;> exact Finset.sum_congr rfl (fun w _ => by ring)

/-- Helper: the two-vector cosine ratio over a duplicate-free word list
lies in the unit interval (division by a zero magnitude gives 0 in the
reals). -/
theorem tf_ratio_range (w1 w2 uniq : List String) (hnd : uniq.Nodup) :
    0 ≤ (((uniq.map (fun w => w1.count w * w2.count w)).sum : ℕ) : ℝ) /
      (Real.sqrt (((uniq.map (fun w => w1.count w * w1.count w)).sum : ℕ) : ℝ) *
        Real.sqrt (((uniq.map (fun w => w2.count w * w2.count w)).sum : ℕ) : ℝ)) ∧
    (((uniq.map (fun w => w1.count w * w2.count w)).sum : ℕ) : ℝ) /
      (Real.sqrt (((uniq.map (fun w => w1.count w * w1.count w)).sum : ℕ) : ℝ) *
        Real.sqrt (((uniq.map (fun w => w2.count w * w2.count w)).sum : ℕ) : ℝ)) ≤ 1 := by
  have hd0 : (0 : ℝ) ≤ (((uniq.map (fun w => w1.count w * w2.count w)).sum : ℕ) : ℝ) :=
    Nat.cast_nonneg _
  have hm0 : (0 : ℝ) ≤
      Real.sqrt (((uniq.map (fun w => w1.count w * w1.count w)).sum : ℕ) : ℝ) *
      Real.sqrt (((uniq.map (fun w => w2.count w * w2.count w)).sum : ℕ) : ℝ) :=
    mul_nonneg (Real.sqrt_nonneg _) (Real.sqrt_nonneg _)
  refine ⟨div_nonneg hd0 hm0, ?_⟩
  rcases eq_or_lt_of_le hm0 with hz | hpos
  · rw [← hz, div_zero]
    norm_num
  · rw [div_le_one hpos]
    have hmul : Real.sqrt (((uniq.map (fun w => w1.count w * w1.count w)).sum : ℕ) : ℝ) *
        Real.sqrt (((uniq.map (fun w => w2.count w * w2.count w)).sum : ℕ) : ℝ) =
        Real.sqrt ((((uniq.map (fun w => w1.count w * w1.count w)).sum : ℕ) : ℝ) *
          (((uniq.map (fun w => w2.count w * w2.count w)).sum : ℕ) : ℝ)) :=
      (Real.sqrt_mul (Nat.cast_nonneg _) _).symm
    rw [hmul]
    rw [Real.le_sqrt hd0 (mul_nonneg (Nat.cast_nonneg _) (Nat.cast_nonneg _))]
    exact tf_cauchy_schwarz w1 w2 uniq hnd

/-- Claim C4 (amended): the two-argument form of cosineSimilarity always
returns a value in the closed interval from 0 to 1, and either form
returns exactly 0 when a required term-frequency vector has zero
magnitude (no eligible tokens); the three-argument form is not bounded by
1, as the counterexample shows. -/
theorem cosineSimilarity_range_amended (a b : String) (t3 : Option String) :
    (0 ≤ cosineSimilarity a b none ∧ cosineSimilarity a b none ≤ 1) ∧
    ((getWords (preprocessText a) = [] ∨ getWords (preprocessText b) = []) →
      cosineSimilarity a b t3 = 0) := by
  constructor
  · have hmain := tf_ratio_range (getWords (preprocessText a))
      (getWords (preprocessText b))
      ((getWords (preprocessText a) ++ getWords (preprocessText b) ++
        ([] : List String)).dedup) (List.nodup_dedup _)
    simp only [cosineSimilarity, List.length_nil, ne_eq, not_true_eq_false,
      false_and, or_false, if_false, ite_true, ite_false]
    constructor
    · split
      · norm_num
      · exact hmain.1
    · split
      · norm_num
      · exact hmain.2
  · intro h
    simp only [cosineSimilarity]
    rcases h with h | h <;> rw [h] <;> simp [List.count_nil]

/-- Witness for cosineSimilarity_range_amended: a concrete pair lies in
the unit interval, and a single-character first text (no eligible token,
zero magnitude) gives exactly 0 even in the three-argument form. -/
theorem cosineSimilarity_range_amended_witness :
    getWords (preprocessText "x") = [] ∧
    0 ≤ cosineSimilarity "hello world" "hello" none ∧
    cosineSimilarity "hello world" "hello" none ≤ 1 ∧
    cosineSimilarity "x" "hello" (some "hello there") = 0 :=
  ⟨by decide,
   (cosineSimilarity_range_amended "hello world" "hello" none).1.1,
   (cosineSimilarity_range_amended "hello world" "hello" none).1.2,
   (cosineSimilarity_range_amended "x" "hello" (some "hello there")).2
     (Or.inl (by decide))⟩

/-- Helper: takeWhile over a satisfying prefix stops exactly at the first
failing character. -/
theorem takeWhile_all_append (p : Char → Bool) (l1 : List Char) (d : Char)
    (l2 : List Char) (h1 : ∀ c ∈ l1, p c = true) (hd : p d = false) :
    (l1 ++ d :: l2).takeWhile p = l1 := by
  induction l1 with
  | nil => simp [List.takeWhile, hd]
  | cons c cs ih =>
    have hc : p c = true := h1 c (by simp)
    simp only [List.cons_append, List.takeWhile_cons, hc, if_true]
    rw [ih (fun x hx => h1 x (by simp [hx]))]

/-- Helper: dropWhile over a satisfying prefix drops exactly to the first
failing character. -/
theorem dropWhile_all_append (p : Char → Bool) (l1 : List Char) (d : Char)
    (l2 : List Char) (h1 : ∀ c ∈ l1, p c = true) (hd : p d = false) :
    (l1 ++ d :: l2).dropWhile p = d :: l2 := by
  induction l1 with
  | nil => simp [List.dropWhile, hd]
  | cons c cs ih =>
    have hc : p c = true := h1 c (by simp)
    simp only [List.cons_append, List.dropWhile_cons, hc]
    exact ih (fun x hx => h1 x (by simp [hx]))

/-- Helper: the placeholder regex matches a braced variable at the head
of the input, consuming the variable plus the four braces. -/
theorem tryMatch_placeholder (v rest : List Char) (hv : v ≠ [])
    (hvc : ∀ c ∈ v, notBraceBar c = true) :
    tryMatch (lbrace :: lbrace :: (v ++ rbrace :: rbrace :: rest)) =
      some (String.mk v, none, v.length + 4) := by
  have hrb : notBraceBar rbrace = false := by decide
  have htw := takeWhile_all_append notBraceBar v rbrace (rbrace :: rest) hvc hrb
  have hdw := dropWhile_all_append notBraceBar v rbrace (rbrace :: rest) hvc hrb
  have hve : v.isEmpty = false := by
    cases v
    · exact absurd rfl hv
    · rfl
  simp [tryMatch, htw, hdw, hve]

/-- Helper: the placeholder regex matches a braced variable with a
formatter capture, consuming both captures, the bar and the braces. -/
theorem tryMatch_placeholder_fmt (v f rest : List Char) (hv : v ≠ [])
    (hvc : ∀ c ∈ v, notBraceBar c = true) (hf : f ≠ [])
    (hfc : ∀ c ∈ f, notBrace c = true) :
    tryMatch (lbrace :: lbrace ::
        (v ++ barChar :: (f ++ rbrace :: rbrace :: rest))) =
      some (String.mk v, some (String.mk f), v.length + f.length + 5) := by
  have hbb : notBraceBar barChar = false := by decide
  have hrb : notBrace rbrace = false := by decide
  have hnbr : ¬(barChar = rbrace) := by decide
  have htw := takeWhile_all_append notBraceBar v barChar
    (f ++ rbrace :: rbrace :: rest) hvc hbb
  have hdw := dropWhile_all_append notBraceBar v barChar
    (f ++ rbrace :: rbrace :: rest) hvc hbb
  have htw2 := takeWhile_all_append notBrace f rbrace (rbrace :: rest) hfc hrb
  have hdw2 := dropWhile_all_append notBrace f rbrace (rbrace :: rest) hfc hrb
  have hve : v.isEmpty = false := by
    cases v
    · exact absurd rfl hv
    · rfl
  have hfe : f.isEmpty = false := by
    cases f
    · exact absurd rfl hf
    · rfl
  simp [tryMatch, htw, hdw, htw2, hdw2, hve, hfe, hnbr]

/-- Helper: no placeholder match can start at a character other than an
opening brace. -/
theorem tryMatch_not_lbrace (c : Char) (l : List Char) (hc : c ≠ lbrace) :
    tryMatch (c :: l) = none := by
  cases l with
  | nil => rfl
  | cons d ds =>
    simp only [tryMatch]
    rw [if_neg (fun h => hc h.1)]

/-- Helper: a brace-free input is copied verbatim with no warnings. -/
theorem scanTemplate_verbatim
    (repl : String → Option String → Except Unit (String × Bool))
    (l : List Char) (h : ∀ c ∈ l, c ≠ lbrace) :
    scanTemplate repl l = Except.ok (l, 0) := by
  induction l with
  | nil => simp [scanTemplate]
  | cons c cs ih =>
    simp only [scanTemplate, tryMatch_not_lbrace c cs (h c (by simp)),
      ih (fun x hx => h x (by simp [hx]))]

/-- Helper: a brace-free prefix is copied verbatim and scanning continues
on the remainder. -/
theorem scanTemplate_skip
    (repl : String → Option String → Except Unit (String × Bool))
    (pre rest : List Char) (h : ∀ c ∈ pre, c ≠ lbrace) :
    scanTemplate repl (pre ++ rest) =
      match scanTemplate repl rest with
      | Except.error e => Except.error e
      | Except.ok (out, w) => Except.ok (pre ++ out, w) := by
  induction pre with
  | nil =>
    simp only [List.nil_append]
    cases hs : scanTemplate repl rest with
    | error e => simp
    | ok p =>
      cases p
      simp
  | cons c cs ih =>
    simp only [List.cons_append, scanTemplate,
      tryMatch_not_lbrace c (cs ++ rest) (h c (by simp)),
      ih (fun x hx => h x (by simp [hx]))]
    cases hs : scanTemplate repl rest with
    | error e => simp
    | ok p =>
      cases p
      simp

/-- Helper: scanning at a bare placeholder invokes the callback and
continues right after the closing braces. -/
theorem scanTemplate_at_match_nofmt
    (repl : String → Option String → Except Unit (String × Bool))
    (v post : List Char) (hv : v ≠ [])
    (hvc : ∀ c ∈ v, notBraceBar c = true) :
    scanTemplate repl (lbrace :: lbrace :: (v ++ rbrace :: rbrace :: post)) =
      match repl (String.mk v) none with
      | Except.error e => Except.error e
      | Except.ok (r, w) =>
        match scanTemplate repl post with
        | Except.error e => Except.error e
        | Except.ok (out, wc) =>
          Except.ok (r.data ++ out, (if w then 1 else 0) + wc) := by
  have hm := tryMatch_placeholder v post hv hvc
  have hdrop : (lbrace :: (v ++ rbrace :: rbrace :: post)).drop
      (v.length + 4 - 1) = post := by
    have he : (lbrace :: (v ++ rbrace :: rbrace :: post)) =
        (lbrace :: (v ++ [rbrace, rbrace])) ++ post := by simp
    rw [he]
    exact List.drop_left' (by simp)
  simp only [scanTemplate, hm, hdrop]

/-- Helper: scanning at a placeholder with a formatter capture invokes
the callback with the formatter and continues right after the closing
braces. -/
theorem scanTemplate_at_match_fmt
    (repl : String → Option String → Except Unit (String × Bool))
    (v f post : List Char) (hv : v ≠ [])
    (hvc : ∀ c ∈ v, notBraceBar c = true) (hf : f ≠ [])
    (hfc : ∀ c ∈ f, notBrace c = true) :
    scanTemplate repl (lbrace :: lbrace ::
        (v ++ barChar :: (f ++ rbrace :: rbrace :: post))) =
      match repl (String.mk v) (some (String.mk f)) with
      | Except.error e => Except.error e
      | Except.ok (r, w) =>
        match scanTemplate repl post with
        | Except.error e => Except.error e
        | Except.ok (out, wc) =>
          Except.ok (r.data ++ out, (if w then 1 else 0) + wc) := by
  have hm := tryMatch_placeholder_fmt v f post hv hvc hf hfc
  have hdrop : (lbrace :: (v ++ barChar :: (f ++ rbrace :: rbrace :: post))).drop
      (v.length + f.length + 5 - 1) = post := by
    have he : (lbrace :: (v ++ barChar :: (f ++ rbrace :: rbrace :: post))) =
        (lbrace :: (v ++ barChar :: (f ++ [rbrace, rbrace]))) ++ post := by simp
    rw [he]
    exact List.drop_left' (by simp; omega)
  simp only [scanTemplate, hm, hdrop]

/-- Helper: String.mk of a string's characters is that string. -/
theorem String_mk_data (s : String) : String.mk s.data = s := by
  cases s
  rfl

/-- Helper: composeContext on a template made of a brace-free prefix, one
bare placeholder and a brace-free suffix splices the callback result
between prefix and suffix, warning once exactly when the callback warned. -/
theorem composeContext_step
    (state defaults : JValue) (fs : List (String × (JValue → String)))
    (pre post : List Char) (varName : String)
    (hpre : ∀ c ∈ pre, c ≠ lbrace) (hpost : ∀ c ∈ post, c ≠ lbrace)
    (hv : varName.data ≠ [])
    (hvc : ∀ c ∈ varName.data, notBraceBar c = true)
    (r : String) (w : Bool)
    (hrepl : replaceVariable state defaults fs varName none = Except.ok (r, w)) :
    composeContext ⟨state, String.mk (pre ++ lbrace :: lbrace ::
        (varName.data ++ rbrace :: rbrace :: post)), defaults, fs⟩ =
      Except.ok (String.mk (pre ++ r.data ++ post), if w then 1 else 0) := by
  have hmatch := scanTemplate_at_match_nofmt
    (replaceVariable state defaults fs) varName.data post hv hvc
  rw [String_mk_data] at hmatch
  rw [hrepl, scanTemplate_verbatim (replaceVariable state defaults fs) post hpost]
    at hmatch
  have hskip := scanTemplate_skip (replaceVariable state defaults fs) pre
    (lbrace :: lbrace :: (varName.data ++ rbrace :: rbrace :: post)) hpre
  rw [hmatch] at hskip
  simp only [composeContext, hskip]
  simp [List.append_assoc]

/-- Helper: composeContext on a template made of a brace-free prefix, one
formatter-carrying placeholder and a brace-free suffix splices the
callback result between prefix and suffix. -/
theorem composeContext_step_fmt
    (state defaults : JValue) (fs : List (String × (JValue → String)))
    (pre post : List Char) (varName fmtName : String)
    (hpre : ∀ c ∈ pre, c ≠ lbrace) (hpost : ∀ c ∈ post, c ≠ lbrace)
    (hv : varName.data ≠ [])
    (hvc : ∀ c ∈ varName.data, notBraceBar c = true)
    (hf : fmtName.data ≠ [])
    (hfc : ∀ c ∈ fmtName.data, notBrace c = true)
    (r : String) (w : Bool)
    (hrepl : replaceVariable state defaults fs varName (some fmtName) =
      Except.ok (r, w)) :
    composeContext ⟨state, String.mk (pre ++ lbrace :: lbrace ::
        (varName.data ++ barChar ::
          (fmtName.data ++ rbrace :: rbrace :: post))), defaults, fs⟩ =
      Except.ok (String.mk (pre ++ r.data ++ post), if w then 1 else 0) := by
  have hmatch := scanTemplate_at_match_fmt
    (replaceVariable state defaults fs) varName.data fmtName.data post hv hvc hf hfc
  rw [String_mk_data, String_mk_data] at hmatch
  rw [hrepl, scanTemplate_verbatim (replaceVariable state defaults fs) post hpost]
    at hmatch
  have hskip := scanTemplate_skip (replaceVariable state defaults fs) pre
    (lbrace :: lbrace :: (varName.data ++ barChar ::
      (fmtName.data ++ rbrace :: rbrace :: post))) hpre
  rw [hmatch] at hskip
  simp only [composeContext, hskip]
  simp [List.append_assoc]

/-- Helper: a path that resolves in state formats the state value and
does not warn; defaultValues are not consulted. -/
theorem replaceVariable_state_hit (state defaults : JValue)
    (fs : List (String × (JValue → String))) (varName : String)
    (fmtOpt : Option String) (val : JValue)
    (h : getNestedValue (some state) (pathOf varName) = Except.ok (some val)) :
    replaceVariable state defaults fs varName fmtOpt =
      Except.ok (formatValue fs val fmtOpt, false) := by
  simp only [replaceVariable, h]

/-- Helper: a path undefined in state but resolving in defaultValues
formats the default value and does not warn. -/
theorem replaceVariable_default_hit (state defaults : JValue)
    (fs : List (String × (JValue → String))) (varName : String)
    (fmtOpt : Option String) (val : JValue)
    (h1 : getNestedValue (some state) (pathOf varName) = Except.ok none)
    (h2 : getNestedValue (some defaults) (pathOf varName) =
      Except.ok (some val)) :
    replaceVariable state defaults fs varName fmtOpt =
      Except.ok (formatValue fs val fmtOpt, false) := by
  simp only [replaceVariable, h1, h2]

/-- Helper: a path undefined in both state and defaultValues yields the
original placeholder text with the warning flag set. -/
theorem replaceVariable_miss (state defaults : JValue)
    (fs : List (String × (JValue → String))) (varName : String)
    (h1 : getNestedValue (some state) (pathOf varName) = Except.ok none)
    (h2 : getNestedValue (some defaults) (pathOf varName) = Except.ok none) :
    replaceVariable state defaults fs varName none =
      Except.ok ("\x7b\x7b" ++ varName ++ "\x7d\x7d", true) := by
  simp only [replaceVariable, h1, h2]
  rw [String.append_empty]

/-- Helper: the characters of the rebuilt placeholder literal. -/
theorem placeholder_literal_data (varName : String) :
    ("\x7b\x7b" ++ varName ++ "\x7d\x7d").data =
      lbrace :: lbrace :: (varName.data ++ [rbrace, rbrace]) := by
  have h1 : ("\x7b\x7b" : String).data = [lbrace, lbrace] := by decide
  have h2 : ("\x7d\x7d" : String).data = [rbrace, rbrace] := by decide
  simp [h1, h2]
  exact ⟨by decide, by decide⟩

/-- Claim C7 (corrected): for a placeholder in a composeContext template,
resolution walks the dot-separated path first against state, then, only
when the state walk ends undefined, against defaultValues; when both end
undefined the output keeps the original placeholder text unchanged and
one warning is emitted; a resolved value with a named formatter present
in the formatter map is passed through that formatter, otherwise default
stringification applies (null becomes the empty string, arrays are
comma-joined, objects are JSON-serialized, scalars take their string
form).  Correction: the contract holds only when no step of the walk
reads a property of a null intermediate value; such an access raises a
TypeError that aborts the whole composeContext call, so defaultValues are
never consulted and the placeholder is not preserved (see the
counterexample). -/
theorem composeContext_resolution
    (state defaults : JValue) (fs : List (String × (JValue → String)))
    (pre post : List Char) (varName fmtName : String)
    (hpre : ∀ c ∈ pre, c ≠ lbrace) (hpost : ∀ c ∈ post, c ≠ lbrace)
    (hv : varName.data ≠ [])
    (hvc : ∀ c ∈ varName.data, notBraceBar c = true)
    (hf : fmtName.data ≠ [])
    (hfc : ∀ c ∈ fmtName.data, notBrace c = true) :
    (∀ val, getNestedValue (some state) (pathOf varName) =
        Except.ok (some val) →
      composeContext ⟨state, String.mk (pre ++ lbrace :: lbrace ::
          (varName.data ++ rbrace :: rbrace :: post)), defaults, fs⟩ =
        Except.ok (String.mk
          (pre ++ (formatValue fs val none).data ++ post), 0))
    ∧ (∀ val, getNestedValue (some state) (pathOf varName) = Except.ok none →
      getNestedValue (some defaults) (pathOf varName) =
        Except.ok (some val) →
      composeContext ⟨state, String.mk (pre ++ lbrace :: lbrace ::
          (varName.data ++ rbrace :: rbrace :: post)), defaults, fs⟩ =
        Except.ok (String.mk
          (pre ++ (formatValue fs val none).data ++ post), 0))
    ∧ (getNestedValue (some state) (pathOf varName) = Except.ok none →
      getNestedValue (some defaults) (pathOf varName) = Except.ok none →
      composeContext ⟨state, String.mk (pre ++ lbrace :: lbrace ::
          (varName.data ++ rbrace :: rbrace :: post)), defaults, fs⟩ =
        Except.ok (String.mk (pre ++ lbrace :: lbrace ::
          (varName.data ++ rbrace :: rbrace :: post)), 1))
    ∧ (∀ val, getNestedValue (some state) (pathOf varName) =
        Except.ok (some val) →
      composeContext ⟨state, String.mk (pre ++ lbrace :: lbrace ::
          (varName.data ++ barChar ::
            (fmtName.data ++ rbrace :: rbrace :: post))), defaults, fs⟩ =
        Except.ok (String.mk
          (pre ++ (formatValue fs val (some fmtName)).data ++ post), 0))
    ∧ (∀ name fn val, List.lookup name fs = some fn →
      formatValue fs val (some name) = fn val)
    ∧ (∀ name val, List.lookup name fs = none →
      formatValue fs val (some name) = defaultStringify val)
    ∧ (∀ val, formatValue fs val none = defaultStringify val)
    ∧ defaultStringify JValue.nullV = ""
    ∧ (∀ xs, defaultStringify (JValue.arrV xs) = jsArrayJoin xs)
    ∧ (∀ flds, defaultStringify (JValue.objV flds) =
        jsonStringify (JValue.objV flds))
    ∧ (∀ s, defaultStringify (JValue.strV s) = s)
    ∧ (∀ n, defaultStringify (JValue.numV n) = toString n) := by
  refine ⟨?_, ?_, ?_, ?_, ?_, ?_, fun val => rfl, rfl, fun xs => rfl,
    fun flds => rfl, fun s => rfl, fun n => rfl⟩
  · intro val hval
    have h := composeContext_step state defaults fs pre post varName
      hpre hpost hv hvc (formatValue fs val none) false
      (replaceVariable_state_hit state defaults fs varName none val hval)
    simpa using h
  · intro val h1 h2
    have h := composeContext_step state defaults fs pre post varName
      hpre hpost hv hvc (formatValue fs val none) false
      (replaceVariable_default_hit state defaults fs varName none val h1 h2)
    simpa using h
  · intro h1 h2
    have h := composeContext_step state defaults fs pre post varName
      hpre hpost hv hvc ("\x7b\x7b" ++ varName ++ "\x7d\x7d") true
      (replaceVariable_miss state defaults fs varName h1 h2)
    rw [placeholder_literal_data] at h
    simpa [List.append_assoc] using h
  · intro val hval
    have h := composeContext_step_fmt state defaults fs pre post varName fmtName
      hpre hpost hv hvc hf hfc (formatValue fs val (some fmtName)) false
      (replaceVariable_state_hit state defaults fs varName (some fmtName)
        val hval)
    simpa using h
  · intro name fn val hlk
    simp [formatValue, hlk]
  · intro name val hlk
    simp [formatValue, hlk]

/-- Claim C7 counterexample: with state a.b where a is null, resolution
of the placeholder throws a TypeError (modelled as Except.error), so
composeContext aborts: the defaultValues, which here would resolve the
path, are never consulted, and the output does not preserve the literal
placeholder as the claim requires. -/
theorem composeContext_null_path_counterexample :
    composeContext ⟨JValue.objV [("a", JValue.nullV)], "\x7b\x7ba.b\x7d\x7d",
        JValue.objV [("a", JValue.objV [("b", JValue.strV "fallback")])], []⟩ =
      Except.error () ∧
    composeContext ⟨JValue.objV [("a", JValue.nullV)], "\x7b\x7ba.b\x7d\x7d",
        JValue.objV [("a", JValue.objV [("b", JValue.strV "fallback")])], []⟩ ≠
      Except.ok ("\x7b\x7ba.b\x7d\x7d", 1) := by
  have hrepl : replaceVariable (JValue.objV [("a", JValue.nullV)])
      (JValue.objV [("a", JValue.objV [("b", JValue.strV "fallback")])]) []
      "a.b" none = Except.error () := rfl
  have hmatch := scanTemplate_at_match_nofmt
    (replaceVariable (JValue.objV [("a", JValue.nullV)])
      (JValue.objV [("a", JValue.objV [("b", JValue.strV "fallback")])]) [])
    ['a', '.', 'b'] [] (by decide) (by decide)
  have hmk : String.mk ['a', '.', 'b'] = "a.b" := rfl
  rw [hmk, hrepl] at hmatch
  have hl : lbrace = Char.ofNat 123 := rfl
  have hr : rbrace = Char.ofNat 125 := rfl
  rw [hl, hr] at hmatch
  simp only [List.cons_append, List.nil_append] at hmatch
  have h1 : composeContext ⟨JValue.objV [("a", JValue.nullV)],
      "\x7b\x7ba.b\x7d\x7d",
      JValue.objV [("a", JValue.objV [("b", JValue.strV "fallback")])], []⟩ =
      Except.error () := by
    simp only [composeContext]
    rw [hmatch]
  exact ⟨h1, by simp [h1]⟩

/-- Witness for claim C7: a concrete state resolving user.name to John
composes Hello John! from the template, with no warning. -/
theorem composeContext_resolution_witness :
    composeContext ⟨JValue.objV [("user", JValue.objV
        [("name", JValue.strV "John")])],
      String.mk (("Hello " : String).data ++ lbrace :: lbrace ::
        (("user.name" : String).data ++ rbrace :: rbrace ::
          ("!" : String).data)),
      JValue.objV [], []⟩ =
      Except.ok (String.mk (("Hello " : String).data ++
        (formatValue [] (JValue.strV "John") none).data ++
        ("!" : String).data), 0) :=
  (composeContext_resolution
    (JValue.objV [("user", JValue.objV [("name", JValue.strV "John")])])
    (JValue.objV []) [] ("Hello " : String).data ("!" : String).data
    "user.name" "upper" (by decide) (by decide) (by decide) (by decide)
    (by decide) (by decide)).1 (JValue.strV "John") rfl
